import Mathlib

/-!
Verification development for the academic-records bulk-ingestion engine
(`gpp-express-ts`).  The definitions below are a shallow embedding of the
TypeScript source: CSV rows are header-to-cell maps whose cells are
`Option String` (`none` models a missing column / JavaScript `undefined`,
`some ""` a blank cell), JavaScript numbers produced by `parseInt` are
modelled as `Option Int` (`none` models `NaN`), and the decimal values
produced by `parseFloat` are modelled exactly as sign/mantissa/scale
triples (`DecNum`).  Stateful controller code is modelled by explicit
state passing over list-backed stores.
-/

/-! ## Character and string primitives

The JavaScript string operations used by the source (`trim`,
`toLowerCase`, `split`, `padStart`, `substring`, `startsWith`) are
modelled on the underlying character lists so that every definition is
executable and kernel-reducible. -/

/-- Numeric value of a decimal digit character, `none` for non-digits. -/
def digitOfChar (c : Char) : Option Nat :=
  if '0' ≤ c ∧ c ≤ '9' then some (c.toNat - 48) else none

/-- The character for a single decimal digit (`0 ≤ d ≤ 9`). -/
def charOfDigit (d : Nat) : Char := Char.ofNat (48 + d)

/-- JavaScript `String.prototype.trim`: drop whitespace from both ends. -/
def trimChars (cs : List Char) : List Char :=
  ((cs.dropWhile Char.isWhitespace).reverse.dropWhile Char.isWhitespace).reverse

/-- JavaScript `s.trim()`. -/
def jsTrim (s : String) : String := ⟨trimChars s.data⟩

/-- ASCII lowering of one character (the enrollment numbers fed to
`toLowerCase` are ASCII). -/
def lowerChar (c : Char) : Char :=
  if 'A' ≤ c ∧ c ≤ 'Z' then Char.ofNat (c.toNat + 32) else c

/-- JavaScript `s.toLowerCase()` restricted to ASCII case mapping. -/
def strLower (s : String) : String := ⟨s.data.map lowerChar⟩

/-- JavaScript `String.prototype.split(sep)` on character lists: the
pieces between separator occurrences, empty pieces kept. -/
def splitChars (sep : Char) : List Char → List (List Char)
  | [] => [[]]
  | c :: cs =>
    match splitChars sep cs with
    | [] => if c = sep then [[], []] else [[c]]
    | g :: gs => if c = sep then [] :: g :: gs else (c :: g) :: gs

/-- JavaScript `s.padStart(n, c)`. -/
def padStartChar (n : Nat) (fill : Char) (s : String) : String :=
  ⟨List.replicate (n - s.data.length) fill ++ s.data⟩

/-- JavaScript `s.substring(k)` (drop the first `k` characters). -/
def strDropN (k : Nat) (s : String) : String := ⟨s.data.drop k⟩

/-- JavaScript `s.substring(0, k)` (take the first `k` characters). -/
def strTakeN (k : Nat) (s : String) : String := ⟨s.data.take k⟩

/-- Does `s` start with `p`?  (Models the anchored regular expression
used by the enrollment allocator and MongoDB string prefix matching.) -/
def listStartsWith : List Char → List Char → Bool
  | _, [] => true
  | [], _ :: _ => false
  | a :: as, b :: bs => a = b && listStartsWith as bs

/-- `startsWithB s p = true` iff the string `s` begins with `p`. -/
def startsWithB (s p : String) : Bool := listStartsWith s.data p.data

/-- Strict lexicographic comparison of character lists by code point,
the order MongoDB uses when sorting a UTF-8 string field. -/
def listLtB : List Char → List Char → Bool
  | [], [] => false
  | [], _ :: _ => true
  | _ :: _, [] => false
  | a :: as, b :: bs =>
    if a.toNat < b.toNat then true
    else if b.toNat < a.toNat then false
    else listLtB as bs

/-- Strict lexicographic comparison of strings. -/
def strLtB (a b : String) : Bool := listLtB a.data b.data

/-- JavaScript `Array.prototype.join(' ')`. -/
def joinSpace : List String → String
  | [] => ""
  | [x] => x
  | x :: y :: xs => x ++ " " ++ joinSpace (y :: xs)

/-! ## JavaScript numbers

`parseInt` yields an integer or `NaN` (modelled by `Option Int`);
`parseFloat` yields a decimal number modelled exactly by `DecNum`. -/

/-- Maximal leading run of decimal digits of a character list, together
with the rest of the list. -/
def takeLeadingDigits : List Char → List Nat × List Char
  | [] => ([], [])
  | c :: cs =>
    match digitOfChar c with
    | some d => (d :: (takeLeadingDigits cs).1, (takeLeadingDigits cs).2)
    | none => ([], c :: cs)

/-- Value of a big-endian digit list. -/
def digitsValBE (ds : List Nat) : Nat := ds.foldl (fun a d => 10 * a + d) 0

/-- Sign handling shared by `parseInt` and `parseFloat`: an optional
leading `-` or `+`.  Returns (isNegative, rest). -/
def takeSign : List Char → Bool × List Char
  | [] => (false, [])
  | c :: cs =>
    if c = '-' then (true, cs)
    else if c = '+' then (false, cs)
    else (false, c :: cs)

/-- JavaScript `parseInt(s)` (radix 10; the unused hexadecimal prefix
form is not modelled): skip leading whitespace, optional sign, then the
maximal digit run; `none` models `NaN`. -/
def parseIntChars (cs : List Char) : Option Int :=
  let cs1 := cs.dropWhile Char.isWhitespace
  let (neg, cs2) := takeSign cs1
  let ds := (takeLeadingDigits cs2).1
  if ds.isEmpty then none
  else some (if neg then -(digitsValBE ds : Int) else (digitsValBE ds : Int))

/-- `parseInt` applied to an optional cell; `parseInt(undefined)` is
`NaN`. -/
def parseIntStr : Option String → Option Int
  | none => none
  | some s => parseIntChars s.data

/-- A decimal number as produced by `parseFloat`: sign, mantissa and
scale; the value is `(-1)^neg * mant / 10^scale`.  JavaScript stores the
result as a float; `DecNum` carries the parsed decimal exactly, which
agrees with float semantics on all values the engine handles. -/
structure DecNum where
  neg : Bool
  mant : Nat
  scale : Nat
deriving DecidableEq, Repr

/-- The number `0`. -/
def decZero : DecNum := ⟨false, 0, 0⟩

/-- Magnitude part of `parseFloat`: digits, optional point, digits;
fails (`NaN`) if no digit is present.  Exponent notation, unused by the
data, is not modelled. -/
def parseFloatMag (cs : List Char) : Option (Nat × Nat) :=
  let (ids, r1) := takeLeadingDigits cs
  match r1 with
  | '.' :: r2 =>
    let fds := (takeLeadingDigits r2).1
    if ids.isEmpty && fds.isEmpty then none
    else some (digitsValBE ids * 10 ^ fds.length + digitsValBE fds, fds.length)
  | _ => if ids.isEmpty then none else some (digitsValBE ids, 0)

/-- JavaScript `parseFloat(s)`; `none` models `NaN`. -/
def parseFloatChars (cs : List Char) : Option DecNum :=
  let cs1 := cs.dropWhile Char.isWhitespace
  let (neg, cs2) := takeSign cs1
  (parseFloatMag cs2).map (fun mk => ⟨neg, mk.1, mk.2⟩)

/-- `parseFloat` applied to an optional cell. -/
def parseFloatStr : Option String → Option DecNum
  | none => none
  | some s => parseFloatChars s.data

/-- Little-endian decimal digits of `n` (fuel-based so that the
definition is structural and kernel-reducible). -/
def natDigitsAux : Nat → Nat → List Nat
  | 0, _ => []
  | fuel + 1, n => if n = 0 then [] else n % 10 :: natDigitsAux fuel (n / 10)

/-- Big-endian decimal digits of `n` (`[]` for `0`). -/
def natDigitsBE (n : Nat) : List Nat := (natDigitsAux n n).reverse

/-- Big-endian digit characters of `n` (`['0']` for `0`). -/
def natDigitCharsBE (n : Nat) : List Char :=
  if n = 0 then ['0'] else (natDigitsBE n).map charOfDigit

/-- Decimal string of a natural number, as JavaScript stringifies it. -/
def natToString (n : Nat) : String := ⟨natDigitCharsBE n⟩

/-- Decimal string of an integer, as JavaScript stringifies it. -/
def intToString (v : Int) : String :=
  if v < 0 then "-" ++ natToString v.natAbs else natToString v.natAbs

/-- Digit characters of `m` left-padded with `'0'` to width `k`. -/
def padDigitChars (k m : Nat) : List Char :=
  List.replicate (k - (natDigitCharsBE m).length) '0' ++ natDigitCharsBE m

/-- Decimal string of a `DecNum`, modelling the CSV encoding of the
stored number (an exact decimal rendering; JavaScript's shortest-float
rendering likewise reparses to the identical value). -/
def decNumToString (d : DecNum) : String :=
  (if d.neg then "-" else "") ++
    (if d.scale = 0 then natToString d.mant
     else natToString (d.mant / 10 ^ d.scale) ++ "." ++
       (⟨padDigitChars d.scale (d.mant % 10 ^ d.scale)⟩ : String))

/-! ## JavaScript coercion helpers -/

/-- JavaScript truthiness of an optional string cell: `undefined` and
`""` are falsy, every other string is truthy. -/
def jsTruthyStr : Option String → Bool
  | none => false
  | some s => !(s = "")

/-- JavaScript `cell || dflt` for string cells. -/
def jsOrStr (c : Option String) (dflt : String) : String :=
  match c with
  | none => dflt
  | some s => if s = "" then dflt else s

/-- JavaScript `parseInt(...) || dflt`: `NaN` and `0` fall back. -/
def jsOrInt (v : Option Int) (dflt : Int) : Int :=
  match v with
  | none => dflt
  | some x => if x = 0 then dflt else x

/-- JavaScript `parseFloat(...) || dflt`: `NaN` and `±0` fall back. -/
def jsOrDec (v : Option DecNum) (dflt : DecNum) : DecNum :=
  match v with
  | none => dflt
  | some x => if x.mant = 0 then dflt else x

/-- Models the strict-equality test `cell === 1` the importer applies to
the `BCK{i}` column: the left operand is a CSV cell (a string, or
`undefined` for a missing column) and the right operand is the number
`1`; JavaScript strict equality between a string or `undefined` and a
number is false without coercion, so the test never succeeds. -/
def jsEqNumOne (_ : Option String) : Bool := false

/-! ## Wide-format exam results (`faculty.controller.ts`)

A decoded CSV row is modelled as a record of the columns the engine
reads, with the fifteen-slot subject column families `SUB{i}`,
`SUB{i}NA`, `SUB{i}CR`, `SUB{i}GR`, `BCK{i}` represented as maps from
the slot index.  A cell is `none` when the column is absent from the
file (JavaScript `undefined`) and `some s` when present with text `s`. -/

structure WideRow where
  St_Id : Option String := none
  extype : Option String := none
  examid : Option String := none
  exam : Option String := none
  DECLARATIONDATE : Option String := none
  AcademicYear : Option String := none
  sem : Option String := none
  MAP_NUMBER : Option String := none
  UNIT_NO : Option String := none
  EXAMNUMBER : Option String := none
  name : Option String := none
  instcode : Option String := none
  instName : Option String := none
  CourseName : Option String := none
  BR_CODE : Option String := none
  BR_NAME : Option String := none
  SPI_TOTCR : Option String := none
  SPI_ERTOTCR : Option String := none
  SPI : Option String := none
  CPI : Option String := none
  CGPA : Option String := none
  RESULT : Option String := none
  TRIAL : Option String := none
  REMARK : Option String := none
  uploadBatch : Option String := none
  sub : Nat → Option String := fun _ => none
  subNA : Nat → Option String := fun _ => none
  subCR : Nat → Option String := fun _ => none
  subGR : Nat → Option String := fun _ => none
  bck : Nat → Option String := fun _ => none

/-- One embedded subject entry of an `ExamResult`. -/
structure GtuSubject where
  code : String
  name : String
  credits : Int
  grade : String
  isBacklog : Bool
deriving DecidableEq, Repr

/-- The normalized result record built by `processGtuResultCsv`.  Fields
that receive a raw row lookup keep type `Option String` (`undefined`
possible); numeric fields carry the `parseInt`/`parseFloat` results
after the `|| default` fallback.  `declarationDate` carries the raw cell
text: the `new Date(...)` normalization is not modelled, and no claim
depends on it. -/
structure GtuResult where
  st_id : Option String
  extype : Option String
  examid : Int
  exam : Option String
  declarationDate : Option String
  academicYear : Option String
  semester : Int
  mapNumber : DecNum
  unitNo : DecNum
  examNumber : DecNum
  name : Option String
  instcode : Int
  instName : Option String
  courseName : Option String
  branchCode : Int
  branchName : Option String
  subjects : List GtuSubject
  totalCredits : Int
  earnedCredits : Int
  spi : DecNum
  cpi : DecNum
  cgpa : DecNum
  result : Option String
  trials : Int
  remark : Option String
deriving DecidableEq, Repr

/-- The raw string behind a cell the code has already checked for
truthiness (so the cell is `some s` with `s ≠ ""`). -/
def cellText (c : Option String) : String := c.getD ""

/-- The subject-slot body of the import loop: slot `i` is skipped unless
both `SUB{i}` and `SUB{i}NA` are truthy; credits fall back to `0`, the
grade falls back to `""`, and the backlog flag is the strict-equality
test against the number `1`. -/
def slotSubject (row : WideRow) (i : Nat) : Option GtuSubject :=
  if jsTruthyStr (row.sub i) && jsTruthyStr (row.subNA i) then
    some { code := cellText (row.sub i)
         , name := cellText (row.subNA i)
         , credits := jsOrInt (parseIntStr (row.subCR i)) 0
         , grade := jsOrStr (row.subGR i) ""
         , isBacklog := jsEqNumOne (row.bck i) }
  else none

/-- The subject list of one row: the loop `for (let i = 1; i <= 15; i++)`
with `continue` on blank slots. -/
def subjectsOfRow (row : WideRow) : List GtuSubject :=
  (List.range 15).filterMap (fun j => slotSubject row (j + 1))

/-- `processGtuResultCsv` on a single row: the normalized record. -/
def processGtuRow (row : WideRow) : GtuResult :=
  { st_id := row.St_Id
  , extype := row.extype
  , examid := jsOrInt (parseIntStr row.examid) 0
  , exam := row.exam
  , declarationDate := row.DECLARATIONDATE
  , academicYear := row.AcademicYear
  , semester := jsOrInt (parseIntStr row.sem) 0
  , mapNumber := jsOrDec (parseFloatStr row.MAP_NUMBER) decZero
  , unitNo := jsOrDec (parseFloatStr row.UNIT_NO) decZero
  , examNumber := jsOrDec (parseFloatStr row.EXAMNUMBER) decZero
  , name := row.name
  , instcode := jsOrInt (parseIntStr row.instcode) 0
  , instName := row.instName
  , courseName := row.CourseName
  , branchCode := jsOrInt (parseIntStr row.BR_CODE) 0
  , branchName := row.BR_NAME
  , subjects := subjectsOfRow row
  , totalCredits := jsOrInt (parseIntStr row.SPI_TOTCR) 0
  , earnedCredits := jsOrInt (parseIntStr row.SPI_ERTOTCR) 0
  , spi := jsOrDec (parseFloatStr row.SPI) decZero
  , cpi := jsOrDec (parseFloatStr row.CPI) decZero
  , cgpa := jsOrDec (parseFloatStr row.CGPA) decZero
  , result := row.RESULT
  , trials := jsOrInt (parseIntStr row.TRIAL) 1
  , remark := row.REMARK }

/-- `processGtuResultCsv`: normalize every decoded row. -/
def processGtuResultCsv (rows : List WideRow) : List GtuResult :=
  rows.map processGtuRow

/-- The wide cells written for subject slot `i` by the export loop
`result.subjects.forEach((subject, index) => ...)` with `i = index + 1`:
slot `i` holds subject `i - 1` of the stored list. -/
def exportSlot (rec : GtuResult) (i : Nat) : Option GtuSubject :=
  if i = 0 then none else rec.subjects[i - 1]?

/-- `exportResults` restricted to one stored record: the flat object the
controller builds, after the CSV encode/decode turns every value into a
cell string (numbers via their decimal rendering, `undefined` via the
empty cell `json2csv` emits for a missing value).  The columns the
export does not write (`MAP_NUMBER`, `UNIT_NO`, `EXAMNUMBER`,
`CourseName`, `SPI_TOTCR`, `SPI_ERTOTCR`) stay absent.  The
`DECLARATIONDATE` cell carries the record's raw date text (the
`toISOString` reformatting is not modelled; no claim reads it). -/
def exportResultRow (rec : GtuResult) (batch : String) : WideRow :=
  { St_Id := some (rec.st_id.getD "")
  , extype := some (rec.extype.getD "")
  , examid := some (intToString rec.examid)
  , exam := some (rec.exam.getD "")
  , DECLARATIONDATE := some (rec.declarationDate.getD "")
  , AcademicYear := some (rec.academicYear.getD "")
  , sem := some (intToString rec.semester)
  , MAP_NUMBER := none
  , UNIT_NO := none
  , EXAMNUMBER := none
  , name := some (rec.name.getD "")
  , instcode := some (intToString rec.instcode)
  , instName := some (rec.instName.getD "")
  , CourseName := none
  , BR_CODE := some (intToString rec.branchCode)
  , BR_NAME := some (rec.branchName.getD "")
  , SPI_TOTCR := none
  , SPI_ERTOTCR := none
  , SPI := some (decNumToString rec.spi)
  , CPI := some (decNumToString rec.cpi)
  , CGPA := some (decNumToString rec.cgpa)
  , RESULT := some (rec.result.getD "")
  , TRIAL := some (intToString rec.trials)
  , REMARK := some (rec.remark.getD "")
  , uploadBatch := some batch
  , sub := fun i => (exportSlot rec i).map (fun s => s.code)
  , subNA := fun i => (exportSlot rec i).map (fun s => s.name)
  , subCR := fun i => (exportSlot rec i).map (fun s => intToString s.credits)
  , subGR := fun i => (exportSlot rec i).map (fun s => s.grade)
  , bck := fun i => (exportSlot rec i).map (fun s => if s.isBacklog then "1" else "0") }

/-! ## Result persistence (`ResultModel`, `importResults`,
`deleteResultsByBatch`)

The result collection is a list of stored documents.  The compound
unique index makes (student id, exam id) the natural key — the cited
schema names the student-identity field `enrollmentNo`, the controller's
documents carry the same GTU enrollment identifier in `st_id`. -/

deriving instance DecidableEq for Except

/-- Request-level error (`AppError(message, statusCode)`). -/
structure AppErr where
  message : String
  statusCode : Nat
deriving DecidableEq, Repr

/-- A persisted exam-result document: the normalized record stamped with
the upload batch id. -/
structure StoredResult where
  base : GtuResult
  uploadBatch : String
deriving DecidableEq, Repr

/-- The natural key guarded by the unique compound index. -/
def resultKey (d : StoredResult) : Option String × Int :=
  (d.base.st_id, d.base.examid)

/-- Does the collection contain a document with key `k`? -/
def hasResultKey (store : List StoredResult) (k : Option String × Int) : Bool :=
  store.any (fun d => resultKey d = k)

/-- `insertMany(docs, { ordered: false })` under the unique index:
every document whose key is already present (in the prior collection or
inserted earlier in the same call) fails with a duplicate-key error and
is skipped; the rest are inserted.  Returns the new collection, the
inserted count and the duplicate count. -/
def insertManyResults : List StoredResult → List StoredResult → List StoredResult × Nat × Nat
  | store, [] => (store, 0, 0)
  | store, d :: ds =>
    if hasResultKey store (resultKey d) then
      let r := insertManyResults store ds
      (r.1, r.2.1, r.2.2 + 1)
    else
      let r := insertManyResults (store ++ [d]) ds
      (r.1, r.2.1 + 1, r.2.2)

/-- The summary object `importResults` responds with. -/
structure ResultImportOut where
  batchId : String
  importedCount : Nat
  totalRows : Nat
deriving DecidableEq, Repr

/-- `importResults` after CSV decoding: normalize the rows, stamp them
with the fresh batch id (supplied by the environment as `uuidv4()`), and
bulk-insert with `ordered: false`.  A duplicate-key failure (code 11000)
is caught and reported through the inserted count, so the run always
responds with a success summary; `importedCount` is
`savedResults.insertedCount || processedResults.length` — when the
inserted count is `0` (falsy) the processed length is reported instead.
Storage outages and schema-validation failures are not modelled. -/
def importResults (store : List StoredResult) (rows : List WideRow)
    (batchId : String) : Except AppErr (List StoredResult × ResultImportOut) :=
  let processed := processGtuResultCsv rows
  let withBatch := processed.map (fun r => StoredResult.mk r batchId)
  let saved := insertManyResults store withBatch
  Except.ok (saved.1,
    { batchId := batchId
    , importedCount := if saved.2.1 = 0 then processed.length else saved.2.1
    , totalRows := rows.length })

/-- `deleteResultsByBatch`: `deleteMany({ uploadBatch: batchId })`, then
a thrown `AppError('No results found for this batch', 404)` when the
deleted count is zero, otherwise the deleted count. -/
def deleteResultsByBatch (store : List StoredResult) (batchId : String) :
    Except AppErr (List StoredResult × Nat) :=
  let deletedCount := store.countP (fun d => d.uploadBatch = batchId)
  if deletedCount = 0 then
    Except.error ⟨"No results found for this batch", 404⟩
  else
    Except.ok (store.filter (fun d => !(d.uploadBatch = batchId)), deletedCount)

/-! ## Student-side field derivation (`student.controller.ts`) -/

/-- Per-semester completion status. -/
inductive SemStatus where
  | CLEARED
  | PENDING
  | NOT_ATTEMPTED
deriving DecidableEq, Repr

/-- The eight-slot semester status map stored on a student. -/
structure SemMap where
  sem1 : SemStatus
  sem2 : SemStatus
  sem3 : SemStatus
  sem4 : SemStatus
  sem5 : SemStatus
  sem6 : SemStatus
  sem7 : SemStatus
  sem8 : SemStatus
deriving DecidableEq, Repr

/-- The dynamic lookup `semesterStatus['sem' + sem]`; the loop only asks
for semesters 1..8. -/
def SemMap.get (m : SemMap) : Nat → SemStatus
  | 1 => m.sem1
  | 2 => m.sem2
  | 3 => m.sem3
  | 4 => m.sem4
  | 5 => m.sem5
  | 6 => m.sem6
  | 7 => m.sem7
  | 8 => m.sem8
  | _ => SemStatus.NOT_ATTEMPTED

/-- `mapSemesterStatus`: falsy input is NOT_ATTEMPTED; otherwise parse,
`NaN` is NOT_ATTEMPTED, `2` is CLEARED, `1` is PENDING, anything else
NOT_ATTEMPTED. -/
def mapSemesterStatus (c : Option String) : SemStatus :=
  if !(jsTruthyStr c) then SemStatus.NOT_ATTEMPTED
  else
    match parseIntStr c with
    | none => SemStatus.NOT_ATTEMPTED
    | some v =>
      if v = 2 then SemStatus.CLEARED
      else if v = 1 then SemStatus.PENDING
      else SemStatus.NOT_ATTEMPTED

/-- `calculateCurrentSemester`: scan `[1..8].reverse()`; the first
semester whose status differs from NOT_ATTEMPTED yields
`Math.min(sem + 1, 8)`; otherwise 1. -/
def calculateCurrentSemester (m : SemMap) : Nat :=
  match (([1, 2, 3, 4, 5, 6, 7, 8] : List Nat).reverse).find?
      (fun s => decide (¬ (m.get s = SemStatus.NOT_ATTEMPTED))) with
  | some s => min (s + 1) 8
  | none => 1

/-- The tokenization of `importGTUStudents`:
`fullName.split(' ').filter(part => part.length > 0)`. -/
def splitNameParts (fullName : String) : List String :=
  ((splitChars ' ' fullName.data).map (fun cs => (⟨cs⟩ : String))).filter
    (fun p => decide (0 < p.length))

/-- `nameParts[0] || ''`. -/
def parsedFirstName (fullName : String) : String :=
  (splitNameParts fullName).headD ""

/-- `nameParts[nameParts.length - 1] || ''` (for the empty token list the
index is `-1`, an absent property, hence `''`). -/
def parsedLastName (fullName : String) : String :=
  (splitNameParts fullName).getLastD ""

/-- `nameParts.slice(1, -1).join(' ') || ''` (the `|| ''` is the
identity: the join of the empty slice is already `''`). -/
def parsedMiddleName (fullName : String) : String :=
  joinSpace (((splitNameParts fullName).drop 1).dropLast)

/-! ## Student import state (`UserModel`, `StudentModel`,
`DepartmentModel`) -/

/-- Surrogate for a MongoDB ObjectId. -/
abbrev OId := Nat

/-- A user account (the fields the ingestion engine touches). -/
structure UserDoc where
  uid : OId
  name : String
  email : String
  password : String
  department : Option OId
  roles : List String
  selectedRole : String
deriving DecidableEq, Repr

/-- A department (lookup by `code` is all the engine needs). -/
structure DeptDoc where
  did : OId
  code : String
deriving DecidableEq, Repr

/-- A student record as written by `importGTUStudents` (the `contact`
subdocument is inlined; `address`, `city`, `state` and `pincode` are
always set to `''` by the importer and are omitted here). -/
structure StudentDoc where
  sid : OId
  userId : Option OId
  departmentId : Option OId
  enrollmentNo : String
  firstName : String
  middleName : String
  lastName : String
  fullName : String
  personalEmail : String
  institutionalEmail : String
  contactMobile : String
  contactEmail : String
  gender : String
  category : String
  aadharNo : String
  semesterStatus : SemMap
  semester : Nat
  batch : String
  status : String
deriving DecidableEq, Repr

/-- The document store visible to the student importer.  `nextId` feeds
fresh ObjectIds to created documents. -/
structure Store where
  users : List UserDoc
  students : List StudentDoc
  depts : List DeptDoc
  nextId : OId
deriving DecidableEq, Repr

/-- A decoded student-roster row (the columns `importGTUStudents`
reads). -/
structure StudentRow where
  map_number : Option String := none
  Name : Option String := none
  Email : Option String := none
  Mobile : Option String := none
  BR_CODE : Option String := none
  Gender : Option String := none
  Category : Option String := none
  aadhar : Option String := none
  SEM1 : Option String := none
  SEM2 : Option String := none
  SEM3 : Option String := none
  SEM4 : Option String := none
  SEM5 : Option String := none
  SEM6 : Option String := none
  SEM7 : Option String := none
  SEM8 : Option String := none
deriving DecidableEq, Repr

/-- A row-diagnostic entry (`{ row, error }` / `{ row, warning }`);
`row` is 1-based over the decoded sequence. -/
structure RowErr where
  row : Nat
  msg : String
deriving DecidableEq, Repr

/-- `UserModel.findByIdAndUpdate(target, ...)`: a `null` target (the
name-repair call of the importer is issued with the still-`null`
`userId` variable) matches no document; the collection is unchanged. -/
def updateUsersById (users : List UserDoc) (target : Option OId)
    (f : UserDoc → UserDoc) : List UserDoc :=
  match target with
  | none => users
  | some i => users.map (fun u => if u.uid = i then f u else u)

/-- Replace the first student whose `enrollmentNo` is `en` by `fields`
(keeping the matched document's id), as `findOneAndUpdate` updates the
first match of its filter. -/
def replaceFirstStudent : List StudentDoc → String → StudentDoc → List StudentDoc
  | [], _, _ => []
  | s :: ss, en, fields =>
    if s.enrollmentNo = en then { fields with sid := s.sid } :: ss
    else s :: replaceFirstStudent ss en fields

/-- `StudentModel.findOneAndUpdate({ enrollmentNo }, fields, { upsert:
true })`: update the first match in place, else insert with a fresh id.
Returns the collection and the next fresh id. -/
def upsertStudent (students : List StudentDoc) (nextId : OId) (en : String)
    (fields : StudentDoc) : List StudentDoc × OId :=
  if (students.find? (fun s => s.enrollmentNo = en)).isSome then
    (replaceFirstStudent students en fields, nextId)
  else
    (students ++ [{ fields with sid := nextId }], nextId + 1)

/-- The institutional email derived from a row (`enrollmentNo
.toLowerCase() + '@gppalanpur.ac.in'`). -/
def instEmailOfRow (row : StudentRow) : String :=
  strLower ((row.map_number.map jsTrim).getD "") ++ "@gppalanpur.ac.in"

/-- The `batch` string `parseInt('20' + en.substring(0, 2)) + '-' +
(parseInt(...) + 4)`; a `NaN` parse renders as `"NaN"` (unreachable here
since the argument always starts with the digits `20`). -/
def batchOfEnrollment (en : String) : String :=
  match parseIntChars ("20" ++ strTakeN 2 en).data with
  | some v => intToString v ++ "-" ++ intToString (v + 4)
  | none => "NaN-NaN"

/-- The loop body of `importGTUStudents` for the row at 0-based position
`idx`.  Returns the store after the row together with the errors, the
warnings and the number of processed students the row contributes. -/
def studentRowStep (st : Store) (idx : Nat) (row : StudentRow) :
    Store × List RowErr × List RowErr × Nat :=
  let enrollCell := row.map_number.map jsTrim
  if jsTruthyStr enrollCell then
    let en := enrollCell.getD ""
    let fullName := jsOrStr (row.Name.map jsTrim) ""
    let nameWarns : List RowErr :=
      if fullName = "" then [⟨idx + 1, "Missing student name"⟩] else []
    match row.BR_CODE with
    | none => (st, [⟨idx + 1, "Missing branch code"⟩], nameWarns, 0)
    | some bc0 =>
      let branchCode := padStartChar 2 '0' bc0
      match st.depts.find? (fun d => d.code = branchCode) with
      | none =>
        (st, [],
          nameWarns ++ [⟨idx + 1, "Department not found for branch code: " ++ branchCode⟩], 0)
      | some dept =>
        let instEmail := strLower en ++ "@gppalanpur.ac.in"
        let personalEmail := jsOrStr (row.Email.map jsTrim) ""
        let afterUser : List UserDoc × Option OId × OId :=
          match st.users.find? (fun u => u.email = instEmail) with
          | some u =>
            let usersA :=
              if u.name = "N/A" && !(fullName = "") then
                updateUsersById st.users none (fun v => { v with name := fullName })
              else st.users
            let usersB :=
              if !(u.roles.contains "student") then
                updateUsersById usersA (some u.uid)
                  (fun v => { v with roles := v.roles ++ ["student"] })
              else usersA
            (usersB, some u.uid, st.nextId)
          | none =>
            (st.users ++ [{ uid := st.nextId
                          , name := if fullName = "" then "N/A" else fullName
                          , email := instEmail
                          , password := en
                          , department := some dept.did
                          , roles := ["student"]
                          , selectedRole := "student" }],
             some st.nextId, st.nextId + 1)
        let semMap : SemMap :=
          ⟨mapSemesterStatus row.SEM1, mapSemesterStatus row.SEM2,
           mapSemesterStatus row.SEM3, mapSemesterStatus row.SEM4,
           mapSemesterStatus row.SEM5, mapSemesterStatus row.SEM6,
           mapSemesterStatus row.SEM7, mapSemesterStatus row.SEM8⟩
        let fields : StudentDoc :=
          { sid := 0
          , userId := afterUser.2.1
          , departmentId := some dept.did
          , enrollmentNo := en
          , firstName := parsedFirstName fullName
          , middleName := parsedMiddleName fullName
          , lastName := parsedLastName fullName
          , fullName := fullName
          , personalEmail := personalEmail
          , institutionalEmail := instEmail
          , contactMobile := jsOrStr (row.Mobile.map jsTrim) ""
          , contactEmail := if personalEmail = "" then instEmail else personalEmail
          , gender := jsOrStr (row.Gender.map jsTrim) ""
          , category := jsOrStr (row.Category.map jsTrim) "OPEN"
          , aadharNo := jsOrStr (row.aadhar.map jsTrim) ""
          , semesterStatus := semMap
          , semester := calculateCurrentSemester semMap
          , batch := batchOfEnrollment en
          , status := "active" }
        let upserted := upsertStudent st.students afterUser.2.2 en fields
        ({ users := afterUser.1
         , students := upserted.1
         , depts := st.depts
         , nextId := upserted.2 }, [], nameWarns, 1)
  else
    (st, [⟨idx + 1, "Missing enrollment number"⟩], [], 0)

/-- The `for (const [index, row] of results.entries())` loop, threading
the store and accumulating diagnostics in order. -/
def importLoop (st : Store) (idx : Nat) :
    List StudentRow → Store × List RowErr × List RowErr × Nat
  | [] => (st, [], [], 0)
  | row :: rest =>
    let r1 := studentRowStep st idx row
    let r2 := importLoop r1.1 (idx + 1) rest
    (r2.1, r1.2.1 ++ r2.2.1, r1.2.2.1 ++ r2.2.2.1, r1.2.2.2 + r2.2.2.2)

/-- The summary `importGTUStudents` responds with (`count` is
`processedStudents.length`; empty diagnostic lists are sent as
`undefined`, collapsed to `[]` here). -/
structure StudentImportOut where
  count : Nat
  errors : List RowErr
  warnings : List RowErr
deriving DecidableEq, Repr

/-- `importGTUStudents` after CSV decoding: an empty decode aborts
before any write — the inner `AppError('CSV file is empty or malformed',
400)` is caught by the surrounding handler and rethrown as
`AppError('Failed to import students', 500)` — otherwise the rows are
processed in order. -/
def importGTUStudents (st : Store) (rows : List StudentRow) :
    Except AppErr (Store × StudentImportOut) :=
  if rows.length = 0 then Except.error ⟨"Failed to import students", 500⟩
  else
    let r := importLoop st 0 rows
    Except.ok (r.1, ⟨r.2.2.2, r.2.1, r.2.2.1⟩)

/-! ## Enrollment number allocator (`syncStudentUser`) -/

/-- The maximum of a list of strings in lexicographic order, as MongoDB
`findOne` with `sort: { enrollmentNo: -1 }` returns it. -/
def maxStr : List String → Option String
  | [] => none
  | x :: xs =>
    match maxStr xs with
    | none => some x
    | some m => some (if strLtB m x then x else m)

/-- The enrollment numbers matching the anchored regular expression
`^currentYear`. -/
def yearCandidates (students : List StudentDoc) (yearStr : String) : List String :=
  (students.map (fun s => s.enrollmentNo)).filter (fun e => startsWithB e yearStr)

/-- `lastStudent?.enrollmentNo ? parseInt(substring(4)) + 1 : 1`: the
counter is 1 when no (or a falsy) enrollment number is found, otherwise
the parsed suffix plus one (`none` models `NaN` propagating). -/
def nextEnrollmentCounter (found : Option String) : Option Int :=
  match found with
  | none => some 1
  | some e =>
    if e = "" then some 1
    else (parseIntStr (some (strDropN 4 e))).map (fun v => v + 1)

/-- `${counter}` in the template literal: `NaN` renders as `"NaN"`. -/
def intDisplay : Option Int → String
  | some v => intToString v
  | none => "NaN"

/-- The enrollment number `syncStudentUser` allocates when the user has
no student record: `currentYear` followed by the zero-padded successor
of the numeric suffix of the lexicographically greatest enrollment
number with the year prefix, starting at 1. -/
def syncNextEnrollmentNo (students : List StudentDoc) (currentYear : Nat) : String :=
  let yearStr := natToString currentYear
  yearStr ++ padStartChar 4 '0'
    (intDisplay (nextEnrollmentCounter (maxStr (yearCandidates students yearStr))))

/-! ## Specification-side definitions

These definitions transcribe the specification's wording (not the
source); theorems compare them with the source-derived definitions
above. -/

/-- Modelled from the spec: `deriveCurrentSemester(statusMap,
maxSemester)` — scan semesters from `maxSemester` down to 1; the first
semester whose status is CLEARED or PENDING yields `min(sem + 1,
maxSemester)`; if none is found the result is 1. -/
def deriveCurrentSemesterSpec (m : SemMap) (maxSem : Nat) : Nat :=
  match (((List.range maxSem).map (fun k => k + 1)).reverse).find?
      (fun s => decide (m.get s = SemStatus.CLEARED ∨ m.get s = SemStatus.PENDING)) with
  | some s => min (s + 1) maxSem
  | none => 1

/-- The diagnostics the specification predicts for rows missing the
mandatory enrollment number: one error per bad row, indexed 1-based over
the decoded sequence starting at 0-based position `idx`. -/
def missingEnrollErrs (idx : Nat) : List StudentRow → List RowErr
  | [] => []
  | r :: rs =>
    (if jsTruthyStr (r.map_number.map jsTrim) then []
     else [⟨idx + 1, "Missing enrollment number"⟩]) ++ missingEnrollErrs (idx + 1) rs

/-- A roster row that fails the mandatory-enrollment check. -/
def badRowB (row : StudentRow) : Bool :=
  !(jsTruthyStr (row.map_number.map jsTrim))

/-- A roster row the importer can fully process against the given
departments: enrollment number present, branch code present, and the
padded branch code resolvable. -/
def validRowB (depts : List DeptDoc) (row : StudentRow) : Bool :=
  jsTruthyStr (row.map_number.map jsTrim) &&
    (row.BR_CODE.elim false
      (fun bc => (depts.find? (fun d => d.code = padStartChar 2 '0' bc)).isSome))

/-! ## Concrete fixtures used by witnesses and counterexamples -/

/-- A semester map with the same status in every slot. -/
def semAll (s : SemStatus) : SemMap := ⟨s, s, s, s, s, s, s, s⟩

/-- A minimal student record carrying only an id and an enrollment
number (the fields the allocator and uniqueness arguments read). -/
def stuEn (i : OId) (en : String) : StudentDoc :=
  { sid := i, userId := none, departmentId := none, enrollmentNo := en
  , firstName := "", middleName := "", lastName := "", fullName := ""
  , personalEmail := "", institutionalEmail := "", contactMobile := ""
  , contactEmail := "", gender := "", category := "", aadharNo := ""
  , semesterStatus := semAll SemStatus.NOT_ATTEMPTED, semester := 1
  , batch := "", status := "" }

/-- A one-subject GTU result row with nonzero aggregate credits and the
backlog sentinel `1` in `BCK1`. -/
def rowC1 : WideRow :=
  { St_Id := some "E001", extype := some "R", examid := some "101", exam := some "WIN24"
  , AcademicYear := some "2024-25", sem := some "3"
  , name := some "PATEL RAJ", instcode := some "617", instName := some "GPP"
  , CourseName := some "DIPLOMA", BR_CODE := some "06", BR_NAME := some "CE"
  , SPI_TOTCR := some "20", SPI_ERTOTCR := some "18"
  , SPI := some "7.45", CPI := some "7.1", CGPA := some "7.2"
  , RESULT := some "PASS", TRIAL := some "1"
  , sub := fun i => if i = 1 then some "CS101" else none
  , subNA := fun i => if i = 1 then some "Programming" else none
  , subCR := fun i => if i = 1 then some "4" else none
  , subGR := fun i => if i = 1 then some "AA" else none
  , bck := fun i => if i = 1 then some "1" else none }

/-- A stored result row (first import of student `E9`, exam `7`). -/
def rowOldC3 : WideRow :=
  { St_Id := some "E9", examid := some "7", name := some "OLD NAME"
  , instName := some "OLD", BR_NAME := some "CE", sem := some "1" }

/-- A re-import row for the same (student, exam) key with changed
fields. -/
def rowNewC3 : WideRow :=
  { St_Id := some "E9", examid := some "7", name := some "NEW NAME"
  , instName := some "NEW", BR_NAME := some "CE", sem := some "1" }

/-- A result collection holding the first import of `rowOldC3` under
batch `"A"`. -/
def storeC3 : List StoredResult := [⟨processGtuRow rowOldC3, "A"⟩]


/-- The digit list whose characters `natToString` prints (`[0]` for
zero). -/
def natDigitListBE (n : Nat) : List Nat :=
  if n = 0 then [0] else natDigitsBE n

/-- The next character (if any) is not a digit. -/
def headNotDigit : List Char → Prop
  | [] => True
  | c :: _ => digitOfChar c = none

/-- The digit values behind `padDigitChars`: the digits of `m` padded
with zeros to width `k`. -/
def padDigitList (k m : Nat) : List Nat :=
  List.replicate (k - (natDigitListBE m).length) 0 ++ natDigitListBE m

/-- The magnitude characters of `decNumToString`. -/
def decMagChars (mant scale : Nat) : List Char :=
  if scale = 0 then natDigitCharsBE mant
  else natDigitCharsBE (mant / 10 ^ scale) ++ '.' :: padDigitChars scale (mant % 10 ^ scale)

/-- A department store fixture: one department with code "06". -/
def deptC6 : DeptDoc := ⟨7, "06"⟩

/-- A store holding only the department fixture. -/
def storeC6 : Store := ⟨[], [], [deptC6], 10⟩

/-- Three roster rows: valid, missing the enrollment number, valid. -/
def rowsC6 : List StudentRow :=
  [{ map_number := some "22000001", Name := some "Patel Raj", BR_CODE := some "6" },
   { Name := some "No Enrollment" },
   { map_number := some "22000002", Name := some "Shah Om", BR_CODE := some "06" }]

/-- The existing user account carrying the placeholder name "N/A" under
the institutional email of enrollment 22000001. -/
def userC10 : UserDoc :=
  ⟨1, "N/A", "22000001@gppalanpur.ac.in", "pw", some 7, ["student"], "student"⟩

/-- A store holding that user and the department fixture. -/
def storeC10 : Store := ⟨[userC10], [], [deptC6], 10⟩

/-- A roster row for the same enrollment carrying a non-empty name. -/
def rowC10 : StudentRow :=
  { map_number := some "22000001", Name := some "Patel Raj", BR_CODE := some "6" }

/-! ## Lemmas: decimal printing and parsing are inverse -/

theorem charToNat_inj {a b : Char} (h : a.toNat = b.toNat) : a = b := by
  apply Char.ext
  apply UInt32.ext
  exact h

theorem digitOfChar_charOfDigit {d : Nat} (h : d < 10) :
    digitOfChar (charOfDigit d) = some d := by
  interval_cases d <;> decide

theorem charOfDigit_props {d : Nat} (h : d < 10) :
    (charOfDigit d).isWhitespace = false ∧ ¬ charOfDigit d = '-' ∧
      ¬ charOfDigit d = '+' := by
  interval_cases d <;> exact ⟨rfl, by decide, by decide⟩

theorem digitsValBE_shift (L : List Nat) (a : Nat) :
    L.foldl (fun x d => 10 * x + d) a =
      a * 10 ^ L.length + L.foldl (fun x d => 10 * x + d) 0 := by
  induction L generalizing a with
  | nil => simp
  | cons d t ih =>
    simp only [List.foldl_cons, List.length_cons]
    rw [ih (10 * a + d), ih (10 * 0 + d)]
    ring

theorem digitsValBE_append_single (L : List Nat) (d : Nat) :
    digitsValBE (L ++ [d]) = 10 * digitsValBE L + d := by
  simp [digitsValBE, List.foldl_append]

theorem natDigitsAux_val : ∀ fuel n, n ≤ fuel →
    digitsValBE (natDigitsAux fuel n).reverse = n := by
  intro fuel
  induction fuel with
  | zero => intro n hn; interval_cases n; rfl
  | succ f ih =>
    intro n hn
    by_cases h0 : n = 0
    · subst h0; rfl
    · have hdiv : n / 10 ≤ f := by omega
      simp only [natDigitsAux, if_neg h0, List.reverse_cons]
      rw [digitsValBE_append_single, ih _ hdiv]
      omega

theorem natDigitsAux_lt10 : ∀ fuel n d, d ∈ natDigitsAux fuel n → d < 10 := by
  intro fuel
  induction fuel with
  | zero => intro n d hd; simp [natDigitsAux] at hd
  | succ f ih =>
    intro n d hd
    by_cases h0 : n = 0
    · subst h0; simp [natDigitsAux] at hd
    · simp only [natDigitsAux, if_neg h0, List.mem_cons] at hd
      rcases hd with h | h
      · omega
      · exact ih _ _ h

theorem natDigitCharsBE_eq_map (n : Nat) :
    natDigitCharsBE n = (natDigitListBE n).map charOfDigit := by
  by_cases h : n = 0 <;> simp [natDigitCharsBE, natDigitListBE, h, charOfDigit]

theorem natDigitListBE_lt10 (n : Nat) : ∀ d ∈ natDigitListBE n, d < 10 := by
  intro d hd
  by_cases h : n = 0
  · simp [natDigitListBE, h] at hd; omega
  · simp only [natDigitListBE, if_neg h, natDigitsBE, List.mem_reverse] at hd
    exact natDigitsAux_lt10 _ _ _ hd

theorem natDigitListBE_val (n : Nat) : digitsValBE (natDigitListBE n) = n := by
  by_cases h : n = 0
  · simp [natDigitListBE, h, digitsValBE]
  · simp only [natDigitListBE, if_neg h, natDigitsBE]
    exact natDigitsAux_val n n le_rfl

theorem natDigitListBE_ne_nil (n : Nat) : ¬ natDigitListBE n = [] := by
  by_cases h : n = 0
  · simp [natDigitListBE, h]
  · obtain ⟨m, rfl⟩ : ∃ m, n = m + 1 := ⟨n - 1, by omega⟩
    simp [natDigitListBE, natDigitsBE, natDigitsAux]

theorem takeLeadingDigits_spec (L : List Nat) (rest : List Char)
    (hL : ∀ d ∈ L, d < 10) (hrest : headNotDigit rest) :
    takeLeadingDigits (L.map charOfDigit ++ rest) = (L, rest) := by
  induction L with
  | nil =>
    cases rest with
    | nil => rfl
    | cons c cs =>
      simp only [headNotDigit] at hrest
      simp [takeLeadingDigits, hrest]
  | cons d t ih =>
    have hd : d < 10 := hL d (List.mem_cons_self d t)
    have ht : ∀ x ∈ t, x < 10 := fun x hx => hL x (List.mem_cons_of_mem d hx)
    simp only [List.map_cons, List.cons_append, takeLeadingDigits,
      digitOfChar_charOfDigit hd, List.append_eq, ih ht]

theorem natToString_data (n : Nat) :
    (natToString n).data = (natDigitListBE n).map charOfDigit := by
  show natDigitCharsBE n = _
  exact natDigitCharsBE_eq_map n

theorem natDigitListBE_cons (n : Nat) :
    ∃ d0 t0, natDigitListBE n = d0 :: t0 := by
  cases h : natDigitListBE n with
  | nil => exact absurd h (natDigitListBE_ne_nil n)
  | cons a t => exact ⟨a, t, rfl⟩

theorem takeLeadingDigits_all (L : List Nat) (hL : ∀ d ∈ L, d < 10) :
    takeLeadingDigits (L.map charOfDigit) = (L, []) := by
  have h := takeLeadingDigits_spec L [] hL trivial
  simpa using h

theorem parseIntChars_natToString (n : Nat) :
    parseIntChars (natToString n).data = some (n : Int) := by
  obtain ⟨d0, t0, hL⟩ := natDigitListBE_cons n
  have hmem : d0 ∈ natDigitListBE n := by rw [hL]; exact List.mem_cons_self _ _
  have hd0 : d0 < 10 := natDigitListBE_lt10 n d0 hmem
  obtain ⟨hw, hm, hp⟩ := charOfDigit_props hd0
  have hdata : (natToString n).data = charOfDigit d0 :: t0.map charOfDigit := by
    rw [natToString_data, hL, List.map_cons]
  have htl : takeLeadingDigits (charOfDigit d0 :: t0.map charOfDigit) =
      (d0 :: t0, []) := by
    have := takeLeadingDigits_all (d0 :: t0) (by rw [← hL] at *; exact natDigitListBE_lt10 n)
    simpa using this
  have hval : digitsValBE (d0 :: t0) = n := by rw [← hL]; exact natDigitListBE_val n
  simp [parseIntChars, hdata, List.dropWhile_cons, hw, takeSign, hm, hp, htl, hval]

theorem parseIntChars_intToString (v : Int) :
    parseIntChars (intToString v).data = some v := by
  by_cases hv : v < 0
  · have hdata : (intToString v).data = '-' :: (natToString v.natAbs).data := by
      simp [intToString, hv]
    obtain ⟨d0, t0, hL⟩ := natDigitListBE_cons v.natAbs
    have hmem : d0 ∈ natDigitListBE v.natAbs := by rw [hL]; exact List.mem_cons_self _ _
    have hd0 : d0 < 10 := natDigitListBE_lt10 _ d0 hmem
    obtain ⟨hw, hm, hp⟩ := charOfDigit_props hd0
    have hdata2 : (natToString v.natAbs).data = charOfDigit d0 :: t0.map charOfDigit := by
      rw [natToString_data, hL, List.map_cons]
    have htl : takeLeadingDigits (charOfDigit d0 :: t0.map charOfDigit) =
        (d0 :: t0, []) := by
      have := takeLeadingDigits_all (d0 :: t0)
        (by rw [← hL] at *; exact natDigitListBE_lt10 v.natAbs)
      simpa using this
    have hval : digitsValBE (d0 :: t0) = v.natAbs := by
      rw [← hL]; exact natDigitListBE_val v.natAbs
    simp [parseIntChars, hdata, hdata2, List.dropWhile_cons, takeSign, htl, hval]
    rw [abs_of_nonpos (le_of_lt hv)]
    ring
  · have habs : ((v.natAbs : Nat) : Int) = v := by omega
    have : intToString v = natToString v.natAbs := by simp [intToString, hv]
    rw [this, parseIntChars_natToString, habs]

theorem digitsValBE_replicate_zero (j : Nat) (L : List Nat) :
    digitsValBE (List.replicate j 0 ++ L) = digitsValBE L := by
  have hz : ∀ i, (List.replicate i (0 : Nat)).foldl (fun a d => 10 * a + d) 0 = 0 := by
    intro i
    induction i with
    | zero => rfl
    | succ m ih => simpa [List.replicate_succ] using ih
  simp [digitsValBE, List.foldl_append, hz]

theorem padDigitList_lt10 (k m : Nat) : ∀ d ∈ padDigitList k m, d < 10 := by
  intro d hd
  simp only [padDigitList, List.mem_append, List.mem_replicate] at hd
  rcases hd with h | h
  · omega
  · exact natDigitListBE_lt10 m d h

theorem padDigitList_val (k m : Nat) : digitsValBE (padDigitList k m) = m := by
  rw [padDigitList, digitsValBE_replicate_zero, natDigitListBE_val]

theorem padDigitChars_eq_map (k m : Nat) :
    padDigitChars k m = (padDigitList k m).map charOfDigit := by
  have h0 : ('0' : Char) = charOfDigit 0 := by decide
  have hlen : (natDigitCharsBE m).length = (natDigitListBE m).length := by
    rw [natDigitCharsBE_eq_map, List.length_map]
  rw [padDigitChars, padDigitList, List.map_append, List.map_replicate, hlen,
    natDigitCharsBE_eq_map, ← h0]

theorem natDigitsAux_length : ∀ fuel n k, n ≤ fuel → n < 10 ^ k →
    (natDigitsAux fuel n).length ≤ k := by
  intro fuel
  induction fuel with
  | zero => intro n k hn _; interval_cases n; simp [natDigitsAux]
  | succ f ih =>
    intro n k hn hk
    by_cases h0 : n = 0
    · subst h0; simp [natDigitsAux]
    · cases k with
      | zero => simp at hk; omega
      | succ k' =>
        have hdiv : n / 10 ≤ f := by omega
        have hlt : n / 10 < 10 ^ k' := by
          have : (10 : Nat) ^ (k' + 1) = 10 ^ k' * 10 := by ring
          rw [Nat.div_lt_iff_lt_mul (by norm_num)]
          omega
        simp only [natDigitsAux, if_neg h0, List.length_cons]
        have := ih (n / 10) k' hdiv hlt
        omega

theorem natDigitListBE_length_le {m k : Nat} (h1 : m < 10 ^ k) (h2 : 0 < k) :
    (natDigitListBE m).length ≤ k := by
  by_cases h : m = 0
  · simp [natDigitListBE, h]; omega
  · simp only [natDigitListBE, if_neg h, natDigitsBE, List.length_reverse]
    exact natDigitsAux_length m m k le_rfl h1

theorem padDigitList_length (k m : Nat) (h1 : m < 10 ^ k) (h2 : 0 < k) :
    (padDigitList k m).length = k := by
  have := natDigitListBE_length_le h1 h2
  simp [padDigitList]
  omega

theorem parseFloatMag_decMag (mant scale : Nat) :
    parseFloatMag (decMagChars mant scale) = some (mant, scale) := by
  by_cases hs : scale = 0
  · subst hs
    obtain ⟨d0, t0, hL⟩ := natDigitListBE_cons mant
    have htl := takeLeadingDigits_all (natDigitListBE mant) (natDigitListBE_lt10 mant)
    have hval := natDigitListBE_val mant
    rw [hL] at htl hval
    rw [List.map_cons] at htl
    simp [decMagChars, natDigitCharsBE_eq_map, hL, parseFloatMag, htl, hval]
  · have hrest : headNotDigit ('.' :: padDigitChars scale (mant % 10 ^ scale)) := by
      show digitOfChar '.' = none
      decide
    have htl1 := takeLeadingDigits_spec (natDigitListBE (mant / 10 ^ scale))
      ('.' :: padDigitChars scale (mant % 10 ^ scale))
      (natDigitListBE_lt10 _) hrest
    have htl2 : takeLeadingDigits (padDigitChars scale (mant % 10 ^ scale)) =
        (padDigitList scale (mant % 10 ^ scale), []) := by
      rw [padDigitChars_eq_map]
      exact takeLeadingDigits_all _ (padDigitList_lt10 _ _)
    have hrlt : mant % 10 ^ scale < 10 ^ scale :=
      Nat.mod_lt _ (Nat.pos_pow_of_pos _ (by norm_num))
    have hlen : (padDigitList scale (mant % 10 ^ scale)).length = scale :=
      padDigitList_length _ _ hrlt (Nat.pos_of_ne_zero hs)
    have hvq := natDigitListBE_val (mant / 10 ^ scale)
    have hvr := padDigitList_val scale (mant % 10 ^ scale)
    obtain ⟨d0, t0, hL⟩ := natDigitListBE_cons (mant / 10 ^ scale)
    rw [hL] at htl1 hvq
    rw [List.map_cons, List.cons_append] at htl1
    have hqr : digitsValBE (d0 :: t0) * 10 ^ scale + mant % 10 ^ scale = mant := by
      rw [hvq]
      exact Nat.div_add_mod' mant (10 ^ scale)
    simp [decMagChars, hs, natDigitCharsBE_eq_map, hL, parseFloatMag, htl1, htl2,
      hlen, hvr, hqr]

theorem decMagChars_cons (mant scale : Nat) :
    ∃ d0 rest, decMagChars mant scale = charOfDigit d0 :: rest ∧ d0 < 10 := by
  by_cases hs : scale = 0
  · obtain ⟨d0, t0, hL⟩ := natDigitListBE_cons mant
    refine ⟨d0, t0.map charOfDigit, ?_, natDigitListBE_lt10 mant d0 (by rw [hL]; simp)⟩
    simp [decMagChars, hs, natDigitCharsBE_eq_map, hL]
  · obtain ⟨d0, t0, hL⟩ := natDigitListBE_cons (mant / 10 ^ scale)
    refine ⟨d0, t0.map charOfDigit ++ '.' :: padDigitChars scale (mant % 10 ^ scale), ?_,
      natDigitListBE_lt10 _ d0 (by rw [hL]; simp)⟩
    simp [decMagChars, hs, natDigitCharsBE_eq_map, hL]

theorem parseFloatChars_decNumToString (d : DecNum) :
    parseFloatChars (decNumToString d).data = some d := by
  cases d with
  | mk neg mant scale =>
    obtain ⟨d0, rest, hmag, hd0⟩ := decMagChars_cons mant scale
    obtain ⟨hw, hm, hp⟩ := charOfDigit_props hd0
    have hPM := parseFloatMag_decMag mant scale
    cases neg with
    | true =>
      have hdata : (decNumToString ⟨true, mant, scale⟩).data =
          '-' :: decMagChars mant scale := by
        by_cases hs : scale = 0 <;>
          simp [decNumToString, decMagChars, hs, natToString]
      have hwm : Char.isWhitespace '-' = false := by decide
      simp only [parseFloatChars]
      rw [hdata]
      simp [List.dropWhile_cons, hwm, takeSign, hPM]
    | false =>
      have hdata : (decNumToString ⟨false, mant, scale⟩).data =
          decMagChars mant scale := by
        by_cases hs : scale = 0 <;>
          simp [decNumToString, decMagChars, hs, natToString]
      simp only [parseFloatChars]
      rw [hdata, hmag]
      simp only [List.dropWhile_cons, hw, Bool.false_eq_true, if_false, takeSign]
      rw [if_neg hm, if_neg hp]
      rw [← hmag, hPM]
      rfl

theorem parseIntStr_intToString (v : Int) :
    parseIntStr (some (intToString v)) = some v :=
  parseIntChars_intToString v

theorem parseFloatStr_decNumToString (d : DecNum) :
    parseFloatStr (some (decNumToString d)) = some d :=
  parseFloatChars_decNumToString d

theorem jsOrInt_some_zero (c : Int) : jsOrInt (some c) 0 = c := by
  by_cases h : c = 0 <;> simp [jsOrInt, h]

theorem jsOrStr_some_empty (t : String) : jsOrStr (some t) "" = t := by
  by_cases h : t = "" <;> simp [jsOrStr, h]

theorem jsOrDec_stable (p : Option DecNum) :
    jsOrDec (some (jsOrDec p decZero)) decZero = jsOrDec p decZero := by
  cases p with
  | none => rfl
  | some x =>
    by_cases h : x.mant = 0 <;> simp [jsOrDec, h, decZero]

theorem jsTruthyStr_true_iff (c : Option String) :
    jsTruthyStr c = true ↔ ∃ t, c = some t ∧ ¬ t = "" := by
  cases c <;> simp [jsTruthyStr]

/-! ## Lemmas: subject slots round-trip through export -/

theorem subjectsOfRow_wf (row : WideRow) :
    ∀ s ∈ subjectsOfRow row, ¬ s.code = "" ∧ ¬ s.name = "" ∧ s.isBacklog = false := by
  intro s hs
  simp only [subjectsOfRow, List.mem_filterMap] at hs
  obtain ⟨j, _, hj⟩ := hs
  rw [slotSubject] at hj
  split at hj
  case isTrue h =>
    have hand : jsTruthyStr (row.sub (j + 1)) = true ∧
        jsTruthyStr (row.subNA (j + 1)) = true := by simpa using h
    obtain ⟨h1, h2⟩ := hand
    obtain ⟨t1, ht1, hne1⟩ := (jsTruthyStr_true_iff _).mp h1
    obtain ⟨t2, ht2, hne2⟩ := (jsTruthyStr_true_iff _).mp h2
    obtain rfl := Option.some.inj hj
    refine ⟨?_, ?_, rfl⟩
    · simpa [cellText, ht1] using hne1
    · simpa [cellText, ht2] using hne2
  case isFalse h => exact absurd hj (by simp)

theorem slotSubject_export (rec : GtuResult) (b : String)
    (hwf : ∀ s ∈ rec.subjects, ¬ s.code = "" ∧ ¬ s.name = "" ∧ s.isBacklog = false)
    (j : Nat) :
    slotSubject (exportResultRow rec b) (j + 1) = rec.subjects[j]? := by
  cases h : rec.subjects[j]? with
  | none =>
    have hsub : (exportResultRow rec b).sub (j + 1) = none := by
      simp [exportResultRow, exportSlot, h]
    simp [slotSubject, hsub, jsTruthyStr]
  | some s =>
    have hmem : s ∈ rec.subjects := by
      have := List.getElem?_eq_some_iff.mp h
      obtain ⟨hlt, hget⟩ := this
      exact hget ▸ List.getElem_mem hlt
    obtain ⟨hc, hn, hb⟩ := hwf s hmem
    have hsub : (exportResultRow rec b).sub (j + 1) = some s.code := by
      simp [exportResultRow, exportSlot, h]
    have hsubNA : (exportResultRow rec b).subNA (j + 1) = some s.name := by
      simp [exportResultRow, exportSlot, h]
    have hsubCR : (exportResultRow rec b).subCR (j + 1) = some (intToString s.credits) := by
      simp [exportResultRow, exportSlot, h]
    have hsubGR : (exportResultRow rec b).subGR (j + 1) = some s.grade := by
      simp [exportResultRow, exportSlot, h]
    rw [slotSubject, hsub, hsubNA, hsubCR, hsubGR]
    have htc : jsTruthyStr (some s.code) = true := by simp [jsTruthyStr, hc]
    have htn : jsTruthyStr (some s.name) = true := by simp [jsTruthyStr, hn]
    rw [htc, htn]
    simp only [Bool.and_self, if_true, cellText, Option.getD_some,
      parseIntStr_intToString, jsOrInt_some_zero, jsOrStr_some_empty, jsEqNumOne]
    cases s with
    | mk sc sn scr sg sb =>
      simp only at hb
      rw [hb]

theorem filterMap_range_getElem {α : Type} (l : List α) (n : Nat) :
    (List.range n).filterMap (fun j => l[j]?) = l.take n := by
  induction n with
  | zero => simp
  | succ m ih =>
    rw [List.range_succ, List.filterMap_append, ih, List.take_succ]
    cases h : l[m]? <;> simp [List.filterMap_cons, h]

theorem subjectsOfRow_length_le (row : WideRow) : (subjectsOfRow row).length ≤ 15 := by
  have h := List.length_filterMap_le (fun j => slotSubject row (j + 1)) (List.range 15)
  simpa [subjectsOfRow] using h

theorem subjectsOfRow_export (rec : GtuResult) (b : String)
    (hwf : ∀ s ∈ rec.subjects, ¬ s.code = "" ∧ ¬ s.name = "" ∧ s.isBacklog = false)
    (hlen : rec.subjects.length ≤ 15) :
    subjectsOfRow (exportResultRow rec b) = rec.subjects := by
  rw [subjectsOfRow]
  rw [List.filterMap_congr (fun j _ => slotSubject_export rec b hwf j)]
  rw [filterMap_range_getElem]
  exact List.take_of_length_le hlen

/-! ## Claim theorems -/

/-- C1 (amended).  For every record produced by the result-import
direction from a wide CSV row (it always has at most 15 subjects),
exporting it and re-importing the exported row yields an identical
subject list (same codes, names, credits, grades, backlog flags) and
identical SPI, CPI and CGPA; the total-credits and earned-credits
aggregates are NOT preserved — the export omits the `SPI_TOTCR` and
`SPI_ERTOTCR` columns, so both re-import as 0. -/
theorem c1_round_trip_amended (r0 : WideRow) (b : String) :
    (processGtuRow r0).subjects.length ≤ 15 ∧
    (processGtuRow (exportResultRow (processGtuRow r0) b)).subjects =
      (processGtuRow r0).subjects ∧
    (processGtuRow (exportResultRow (processGtuRow r0) b)).spi =
      (processGtuRow r0).spi ∧
    (processGtuRow (exportResultRow (processGtuRow r0) b)).cpi =
      (processGtuRow r0).cpi ∧
    (processGtuRow (exportResultRow (processGtuRow r0) b)).cgpa =
      (processGtuRow r0).cgpa ∧
    (processGtuRow (exportResultRow (processGtuRow r0) b)).totalCredits = 0 ∧
    (processGtuRow (exportResultRow (processGtuRow r0) b)).earnedCredits = 0 := by
  have hsubs : (processGtuRow r0).subjects = subjectsOfRow r0 := rfl
  have hwf : ∀ s ∈ (processGtuRow r0).subjects,
      ¬ s.code = "" ∧ ¬ s.name = "" ∧ s.isBacklog = false := by
    rw [hsubs]; exact subjectsOfRow_wf r0
  have hlen : (processGtuRow r0).subjects.length ≤ 15 := by
    rw [hsubs]; exact subjectsOfRow_length_le r0
  refine ⟨hlen, ?_, ?_, ?_, ?_, ?_, ?_⟩
  · show subjectsOfRow (exportResultRow (processGtuRow r0) b) = (processGtuRow r0).subjects
    exact subjectsOfRow_export _ _ hwf hlen
  · show jsOrDec (parseFloatStr (some (decNumToString (processGtuRow r0).spi))) decZero =
      (processGtuRow r0).spi
    rw [parseFloatStr_decNumToString]
    exact jsOrDec_stable (parseFloatStr r0.SPI)
  · show jsOrDec (parseFloatStr (some (decNumToString (processGtuRow r0).cpi))) decZero =
      (processGtuRow r0).cpi
    rw [parseFloatStr_decNumToString]
    exact jsOrDec_stable (parseFloatStr r0.CPI)
  · show jsOrDec (parseFloatStr (some (decNumToString (processGtuRow r0).cgpa))) decZero =
      (processGtuRow r0).cgpa
    rw [parseFloatStr_decNumToString]
    exact jsOrDec_stable (parseFloatStr r0.CGPA)
  · rfl
  · rfl

/-- C1 (counterexample).  Importing `rowC1` yields total credits 20 and
earned credits 18, but exporting the record and re-importing the
exported row yields 0 for both: the aggregates are not identical, so
the round trip claimed by the specification fails. -/
theorem c1_round_trip_cex :
    (processGtuRow rowC1).totalCredits = 20 ∧
    (processGtuRow rowC1).earnedCredits = 18 ∧
    (processGtuRow (exportResultRow (processGtuRow rowC1) "batch-2")).totalCredits = 0 ∧
    (processGtuRow (exportResultRow (processGtuRow rowC1) "batch-2")).earnedCredits = 0 := by
  refine ⟨by decide, by decide, rfl, rfl⟩

/-- C2 (counterexample).  `parseFullName("Patel Raj Kumar")` does not
yield last "Patel", first "Raj", middle "Kumar": the importer assigns
the first token to `firstName` and the last token to `lastName`. -/
theorem c2_name_parsing_cex :
    ¬ (parsedLastName "Patel Raj Kumar" = "Patel" ∧
       parsedFirstName "Patel Raj Kumar" = "Raj" ∧
       parsedMiddleName "Patel Raj Kumar" = "Kumar") := by
  decide

/-- C2 (amended).  Name parsing splits the raw full name on the space
character and drops empty tokens; `firstName` is the FIRST token,
`lastName` is the LAST token (the same token when there is exactly one),
and `middleName` is the intermediate tokens joined by single spaces; all
three are empty when there is no token.  In particular
`parseFullName("Patel Raj Kumar")` gives first "Patel", middle "Raj",
last "Kumar", and `parseFullName("Patel Raj")` gives first "Patel",
last "Raj", empty middle. -/
theorem c2_name_parsing_amended :
    (∀ raw a, splitNameParts raw = [a] →
      parsedFirstName raw = a ∧ parsedMiddleName raw = "" ∧ parsedLastName raw = a) ∧
    (∀ raw a b, splitNameParts raw = [a, b] →
      parsedFirstName raw = a ∧ parsedMiddleName raw = "" ∧ parsedLastName raw = b) ∧
    (∀ raw a b c, splitNameParts raw = [a, b, c] →
      parsedFirstName raw = a ∧ parsedMiddleName raw = b ∧ parsedLastName raw = c) ∧
    (∀ raw a b c d, splitNameParts raw = [a, b, c, d] →
      parsedFirstName raw = a ∧ parsedMiddleName raw = b ++ " " ++ c ∧
        parsedLastName raw = d) ∧
    (∀ raw, splitNameParts raw = [] →
      parsedFirstName raw = "" ∧ parsedMiddleName raw = "" ∧ parsedLastName raw = "") ∧
    (parsedFirstName "Patel Raj Kumar" = "Patel" ∧
      parsedMiddleName "Patel Raj Kumar" = "Raj" ∧
      parsedLastName "Patel Raj Kumar" = "Kumar") ∧
    (parsedFirstName "Patel Raj" = "Patel" ∧ parsedMiddleName "Patel Raj" = "" ∧
      parsedLastName "Patel Raj" = "Raj") := by
  refine ⟨?_, ?_, ?_, ?_, ?_, ?_, ?_⟩
  · intro raw a h
    exact ⟨by simp [parsedFirstName, h], by simp [parsedMiddleName, h, joinSpace],
      by simp [parsedLastName, h]⟩
  · intro raw a b h
    exact ⟨by simp [parsedFirstName, h], by simp [parsedMiddleName, h, joinSpace],
      by simp [parsedLastName, h]⟩
  · intro raw a b c h
    exact ⟨by simp [parsedFirstName, h], by simp [parsedMiddleName, h, joinSpace],
      by simp [parsedLastName, h]⟩
  · intro raw a b c d h
    exact ⟨by simp [parsedFirstName, h], by simp [parsedMiddleName, h, joinSpace],
      by simp [parsedLastName, h]⟩
  · intro raw h
    exact ⟨by simp [parsedFirstName, h], by simp [parsedMiddleName, h, joinSpace],
      by simp [parsedLastName, h]⟩
  · exact ⟨by decide, by decide, by decide⟩
  · exact ⟨by decide, by decide, by decide⟩

/-- C2 (witness).  The single-token case applied at "Solo": both the
first and the last name receive the token. -/
theorem c2_name_parsing_witness :
    parsedFirstName "Solo" = "Solo" ∧ parsedLastName "Solo" = "Solo" :=
  ⟨(c2_name_parsing_amended.1 "Solo" "Solo" (by decide)).1,
   (c2_name_parsing_amended.1 "Solo" "Solo" (by decide)).2.2⟩

theorem findPredCongr (l : List Nat) (p q : Nat → Bool) (h : ∀ x, p x = q x) :
    l.find? p = l.find? q := by
  induction l with
  | nil => rfl
  | cons a t ih => simp [List.find?, h a, ih]

/-- C7.  `calculateCurrentSemester` equals the specified
`deriveCurrentSemester` at the hard-coded program length 8: it scans
semesters 8 down to 1 and the first semester whose status is CLEARED or
PENDING yields `min(sem + 1, 8)`, with 1 when none is found.  The three
specified instances hold: six cleared semesters give 7, an untouched
map gives 1, and a single pending first semester gives 2. -/
theorem c7_current_semester :
    (∀ m : SemMap, calculateCurrentSemester m = deriveCurrentSemesterSpec m 8) ∧
    calculateCurrentSemester
      ⟨SemStatus.CLEARED, SemStatus.CLEARED, SemStatus.CLEARED, SemStatus.CLEARED,
       SemStatus.CLEARED, SemStatus.CLEARED, SemStatus.NOT_ATTEMPTED,
       SemStatus.NOT_ATTEMPTED⟩ = 7 ∧
    calculateCurrentSemester (semAll SemStatus.NOT_ATTEMPTED) = 1 ∧
    calculateCurrentSemester
      ⟨SemStatus.PENDING, SemStatus.NOT_ATTEMPTED, SemStatus.NOT_ATTEMPTED,
       SemStatus.NOT_ATTEMPTED, SemStatus.NOT_ATTEMPTED, SemStatus.NOT_ATTEMPTED,
       SemStatus.NOT_ATTEMPTED, SemStatus.NOT_ATTEMPTED⟩ = 2 := by
  refine ⟨?_, by decide, by decide, by decide⟩
  intro m
  have hl : (((List.range 8).map (fun k => k + 1)).reverse : List Nat) =
      (([1, 2, 3, 4, 5, 6, 7, 8] : List Nat)).reverse := by decide
  have hp : ∀ x : Nat,
      (decide (¬ (m.get x = SemStatus.NOT_ATTEMPTED)) : Bool) =
        decide (m.get x = SemStatus.CLEARED ∨ m.get x = SemStatus.PENDING) := by
    intro x
    cases m.get x <;> rfl
  rw [calculateCurrentSemester, deriveCurrentSemesterSpec, hl,
    findPredCongr _ _ _ hp]

/-- C8 (evaluation at the failing input).  `rowC1` carries the truthy
backlog sentinel in its `BCK1` cell, yet the imported subject's backlog
flag is false: the importer compares the raw CSV string against the
number `1` with strict equality (`=== 1`), which no string satisfies,
so the backlog flag can never be set by the import. -/
theorem c8_backlog_eval :
    rowC1.bck 1 = some "1" ∧
    (processGtuRow rowC1).subjects = [⟨"CS101", "Programming", 4, "AA", false⟩] ∧
    (∀ row : WideRow, ∀ s ∈ subjectsOfRow row, s.isBacklog = false) := by
  refine ⟨by decide, by decide, ?_⟩
  intro row s hs
  exact (subjectsOfRow_wf row s hs).2.2

/-- C4 (counterexample).  Deleting a batch id that matches no stored
result does not return `deletedCount == 0`: the controller throws
`AppError('No results found for this batch', 404)`. -/
theorem c4_batch_delete_cex :
    deleteResultsByBatch storeC3 "missing-batch" =
      Except.error ⟨"No results found for this batch", 404⟩ := by
  decide

/-- C4 (amended).  For every batch id that matches no persisted result
document, batch-scoped deletion signals a hard not-found error
(`AppError('No results found for this batch', 404)`) instead of
returning a zero deleted count to the caller. -/
theorem c4_batch_delete_amended (store : List StoredResult) (b : String)
    (h : ∀ d ∈ store, ¬ d.uploadBatch = b) :
    deleteResultsByBatch store b =
      Except.error ⟨"No results found for this batch", 404⟩ := by
  have hc : store.countP (fun d => d.uploadBatch = b) = 0 :=
    List.countP_eq_zero.mpr (by simpa using h)
  simp [deleteResultsByBatch, hc]

/-- C4 (witness).  The amended statement applied to the one-document
store under a fresh batch id. -/
theorem c4_batch_delete_witness :
    deleteResultsByBatch storeC3 "other-batch" =
      Except.error ⟨"No results found for this batch", 404⟩ :=
  c4_batch_delete_amended storeC3 "other-batch" (by decide)

/-- C5 (counterexample).  The result import does not abort on a
zero-row decode: it completes successfully with `importedCount = 0` and
`totalRows = 0`. -/
theorem c5_empty_input_cex :
    importResults [] [] "b0" = Except.ok ([], ⟨"b0", 0, 0⟩) := by
  decide

/-- C5 (amended).  A zero-row decode aborts the student-roster import
before any write (the inner 400 structural error is rethrown by the
outer handler as `AppError('Failed to import students', 500)`), but the
result import does NOT abort: it responds successfully with
`importedCount = 0` and `totalRows = 0`, leaving the store unchanged
(no write is issued in either case). -/
theorem c5_empty_input_amended :
    (∀ st : Store, importGTUStudents st [] =
      Except.error ⟨"Failed to import students", 500⟩) ∧
    (∀ (store : List StoredResult) (b : String),
      importResults store [] b = Except.ok (store, ⟨b, 0, 0⟩)) := by
  exact ⟨fun _ => rfl, fun _ _ => rfl⟩

/-- C3 (counterexample).  Re-importing a row whose (student id, exam
id) key already exists does not update the persisted document with the
row's field values: the store is unchanged (the old `instName` "OLD"
survives although the re-imported row carries "NEW"), and no second
document is created. -/
theorem c3_reimport_cex :
    importResults storeC3 [rowNewC3] "b2" = Except.ok (storeC3, ⟨"b2", 1, 1⟩) ∧
    (processGtuRow rowNewC3).instName = some "NEW" ∧
    storeC3.map (fun d => d.base.instName) = [some "OLD"] := by
  refine ⟨by decide, by decide, by decide⟩

/-- C3 (amended).  Re-importing a row whose natural key (student id,
exam id) already has a persisted document never creates a second
document and leaves the existing document unchanged: the duplicate
insert is rejected by the unique index and counted (`ordered: false`),
and the run completes; the response's `importedCount` falls back to the
processed length because the inserted count 0 is falsy. -/
theorem c3_reimport_amended (store : List StoredResult) (row : WideRow) (b : String)
    (h : hasResultKey store (resultKey ⟨processGtuRow row, b⟩) = true) :
    importResults store [row] b = Except.ok (store, ⟨b, 1, 1⟩) := by
  simp [importResults, processGtuResultCsv, insertManyResults, h]

/-- C3 (witness).  The amended statement applied to the stored first
result of `rowOldC3` and the changed re-import row `rowNewC3`. -/
theorem c3_reimport_witness :
    importResults storeC3 [rowNewC3] "b3" = Except.ok (storeC3, ⟨"b3", 1, 1⟩) :=
  c3_reimport_amended storeC3 rowNewC3 "b3" (by decide)

/-! ## Lemmas: lexicographic maximum for the enrollment allocator -/

theorem listLtB_irrefl : ∀ l : List Char, listLtB l l = false := by
  intro l
  induction l with
  | nil => rfl
  | cons a t ih => simp [listLtB, ih]

theorem listLtB_eq_of_not_lt :
    ∀ a b : List Char, listLtB a b = false → listLtB b a = false → a = b := by
  intro a
  induction a with
  | nil =>
    intro b h1 _
    cases b with
    | nil => rfl
    | cons c cs => simp [listLtB] at h1
  | cons x xs ih =>
    intro b h1 h2
    cases b with
    | nil => simp [listLtB] at h2
    | cons y ys =>
      simp only [listLtB] at h1 h2
      by_cases hxy : x.toNat < y.toNat
      · simp [hxy] at h1
      · by_cases hyx : y.toNat < x.toNat
        · simp [hyx] at h2
        · have hx : x = y := charToNat_inj (by omega)
          subst hx
          simp only [if_neg hxy, if_neg hyx] at h1 h2
          rw [ih ys h1 h2]

theorem listLtB_trans :
    ∀ a b c : List Char, listLtB a b = true → listLtB b c = true →
      listLtB a c = true := by
  intro a
  induction a with
  | nil =>
    intro b c h1 h2
    cases b with
    | nil => simp [listLtB] at h1
    | cons y ys =>
      cases c with
      | nil => simp [listLtB] at h2
      | cons z zs => rfl
  | cons x xs ih =>
    intro b c h1 h2
    cases b with
    | nil => simp [listLtB] at h1
    | cons y ys =>
      cases c with
      | nil => simp [listLtB] at h2
      | cons z zs =>
        simp only [listLtB] at h1 h2 ⊢
        by_cases hxz : x.toNat < z.toNat
        · simp [hxz]
        · by_cases hxy : x.toNat < y.toNat
          · by_cases hyz : y.toNat < z.toNat
            · exact absurd (by omega : x.toNat < z.toNat) hxz
            · by_cases hzy : z.toNat < y.toNat
              · simp [hyz, hzy] at h2
              · exact absurd (by omega : x.toNat < z.toNat) hxz
          · by_cases hyx : y.toNat < x.toNat
            · simp [hxy, hyx] at h1
            · by_cases hyz : y.toNat < z.toNat
              · exact absurd (by omega : x.toNat < z.toNat) hxz
              · by_cases hzy : z.toNat < y.toNat
                · simp [hyz, hzy] at h2
                · have hzx : ¬ z.toNat < x.toNat := by omega
                  simp only [if_neg hxy, if_neg hyx] at h1
                  simp only [if_neg hyz, if_neg hzy] at h2
                  simp only [if_neg hxz, if_neg hzx]
                  exact ih ys zs h1 h2

theorem strLtB_irrefl (a : String) : strLtB a a = false := listLtB_irrefl a.data

theorem strLtB_trans {a b c : String} (h1 : strLtB a b = true)
    (h2 : strLtB b c = true) : strLtB a c = true :=
  listLtB_trans a.data b.data c.data h1 h2

theorem strLtB_eq_of_not_lt {a b : String} (h1 : strLtB a b = false)
    (h2 : strLtB b a = false) : a = b := by
  cases a with
  | mk da =>
    cases b with
    | mk db =>
      have := listLtB_eq_of_not_lt da db h1 h2
      rw [this]

theorem maxStr_eq_none : ∀ {l : List String}, maxStr l = none ↔ l = [] := by
  intro l
  cases l with
  | nil => simp [maxStr]
  | cons x xs =>
    simp only [maxStr]
    cases maxStr xs <;> simp

theorem maxStr_mem : ∀ (l : List String) (m : String), maxStr l = some m → m ∈ l := by
  intro l
  induction l with
  | nil => intro m h; simp [maxStr] at h
  | cons x xs ih =>
    intro m h
    simp only [maxStr] at h
    cases hx : maxStr xs with
    | none =>
      rw [hx] at h
      obtain rfl := Option.some.inj h
      exact List.mem_cons_self _ _
    | some m' =>
      rw [hx] at h
      obtain rfl := Option.some.inj h
      by_cases hlt : strLtB m' x = true
      · simp only [hlt, if_true]
        exact List.mem_cons_self _ _
      · simp only [Bool.not_eq_true] at hlt
        simp only [hlt, Bool.false_eq_true, if_false]
        exact List.mem_cons_of_mem _ (ih m' hx)

theorem maxStr_not_lt : ∀ (l : List String) (m : String), maxStr l = some m →
    ∀ x ∈ l, strLtB m x = false := by
  intro l
  induction l with
  | nil => intro m h; simp [maxStr] at h
  | cons a t ih =>
    intro m h x hx
    simp only [maxStr] at h
    cases hmt : maxStr t with
    | none =>
      rw [hmt] at h
      have ham : a = m := Option.some.inj h
      have ht : t = [] := maxStr_eq_none.mp hmt
      subst ht
      have hxa : x = a := by simpa using hx
      rw [hxa, ← ham]
      exact strLtB_irrefl a
    | some m' =>
      rw [hmt] at h
      have h' : (if strLtB m' a = true then a else m') = m := Option.some.inj h
      have hall := ih m' hmt
      by_cases hlt : strLtB m' a = true
      · rw [if_pos hlt] at h'
        rw [h'] at hlt
        rcases List.mem_cons.mp hx with rfl | hxt
        · rw [← h']
          exact strLtB_irrefl _
        · by_cases hax : strLtB m x = true
          · have hmx := strLtB_trans hlt hax
            rw [hall x hxt] at hmx
            exact absurd hmx (by simp)
          · simpa using hax
      · rw [if_neg hlt] at h'
        rcases List.mem_cons.mp hx with rfl | hxt
        · rw [← h']
          simpa using hlt
        · rw [← h']
          exact hall x hxt

theorem maxStr_eq_of_max (l : List String) (e : String) (he : e ∈ l)
    (hmax : ∀ x ∈ l, strLtB e x = false) : maxStr l = some e := by
  cases hm : maxStr l with
  | none =>
    have : l = [] := maxStr_eq_none.mp hm
    subst this
    cases he
  | some m =>
    have hmem := maxStr_mem l m hm
    have h1 : strLtB e m = false := hmax m hmem
    have h2 : strLtB m e = false := maxStr_not_lt l m hm e he
    rw [strLtB_eq_of_not_lt h2 h1]

theorem natToString_ne_empty (n : Nat) : ¬ natToString n = "" := by
  intro h
  have hd : (natToString n).data = [] := by rw [h]
  obtain ⟨d0, t0, hL⟩ := natDigitListBE_cons n
  rw [natToString_data, hL] at hd
  simp at hd

theorem startsWithB_empty_of_ne (p : String) (hp : ¬ p = "") :
    startsWithB "" p = false := by
  cases p with
  | mk dp =>
    cases dp with
    | nil => exact absurd rfl hp
    | cons c cs => rfl

/-- C9.  The enrollment number allocated by `syncStudentUser` for a
student-role user without a student record: (a) when no persisted
enrollment number has the current-year prefix, the sequence starts at 1
(the year followed by "0001"); (b) otherwise it takes the
lexicographically greatest enrollment number with the year prefix,
parses the numeric suffix after the 4-digit year, increments it and
zero-pads to 4 digits. -/
theorem c9_enrollment_allocator :
    (∀ (students : List StudentDoc) (year : Nat),
      (∀ s ∈ students, startsWithB s.enrollmentNo (natToString year) = false) →
      syncNextEnrollmentNo students year = natToString year ++ "0001") ∧
    (∀ (students : List StudentDoc) (year : Nat) (e : String) (n : Int),
      e ∈ yearCandidates students (natToString year) →
      (∀ x ∈ yearCandidates students (natToString year), strLtB e x = false) →
      parseIntStr (some (strDropN 4 e)) = some n →
      syncNextEnrollmentNo students year =
        natToString year ++ padStartChar 4 '0' (intToString (n + 1))) := by
  constructor
  · intro students year h
    have hc : yearCandidates students (natToString year) = [] := by
      rw [yearCandidates, List.filter_eq_nil_iff]
      intro e he
      obtain ⟨s, hs, rfl⟩ := List.mem_map.mp he
      simp [h s hs]
    rw [syncNextEnrollmentNo, hc]
    show natToString year ++ padStartChar 4 '0' (intDisplay (nextEnrollmentCounter none)) =
      natToString year ++ "0001"
    congr 1
  · intro students year e n he hmax hp
    have hms : maxStr (yearCandidates students (natToString year)) = some e :=
      maxStr_eq_of_max _ _ he hmax
    have hstarts : startsWithB e (natToString year) = true := by
      rw [yearCandidates] at he
      exact (List.mem_filter.mp he).2
    have hene : ¬ e = "" := by
      intro hemp
      rw [hemp, startsWithB_empty_of_ne _ (natToString_ne_empty year)] at hstarts
      exact absurd hstarts (by simp)
    rw [syncNextEnrollmentNo, hms]
    show natToString year ++
        padStartChar 4 '0' (intDisplay (nextEnrollmentCounter (some e))) = _
    rw [nextEnrollmentCounter, if_neg hene, hp]
    rfl

/-- C9 (witness).  Both branches at concrete stores: an empty store for
year 2025 allocates "20250001"; a store whose greatest 2025-prefixed
enrollment number is "20250007" allocates "20250008". -/
theorem c9_enrollment_allocator_witness :
    syncNextEnrollmentNo [] 2025 = "20250001" ∧
    syncNextEnrollmentNo [stuEn 1 "20250003", stuEn 2 "20250007", stuEn 3 "20240011"]
      2025 = "20250008" := by
  constructor
  · have h := c9_enrollment_allocator.1 [] 2025 (by decide)
    rw [h]
    decide
  · have h := c9_enrollment_allocator.2
      [stuEn 1 "20250003", stuEn 2 "20250007", stuEn 3 "20240011"] 2025
      "20250007" 7 (by decide) (by decide) (by decide)
    rw [h]
    decide

/-! ## Lemmas: the student-import loop -/

theorem studentRowStep_bad (st : Store) (idx : Nat) (row : StudentRow)
    (h : jsTruthyStr (row.map_number.map jsTrim) = false) :
    studentRowStep st idx row =
      (st, [⟨idx + 1, "Missing enrollment number"⟩], [], 0) := by
  simp [studentRowStep, h]

theorem validRowB_parts {depts : List DeptDoc} {row : StudentRow}
    (h : validRowB depts row = true) :
    jsTruthyStr (row.map_number.map jsTrim) = true ∧
    ∃ bc, row.BR_CODE = some bc ∧
      ∃ dept, depts.find? (fun d => d.code = padStartChar 2 '0' bc) = some dept := by
  rw [validRowB] at h
  obtain ⟨h1, h2⟩ : jsTruthyStr (row.map_number.map jsTrim) = true ∧
      (row.BR_CODE.elim false
        (fun bc => (depts.find? (fun d => d.code = padStartChar 2 '0' bc)).isSome)) =
        true := by
    simpa using h
  cases hbr : row.BR_CODE with
  | none => rw [hbr] at h2; simp [Option.elim] at h2
  | some bc =>
    rw [hbr] at h2
    simp only [Option.elim] at h2
    obtain ⟨dept, hdept⟩ := Option.isSome_iff_exists.mp h2
    exact ⟨h1, bc, rfl, dept, hdept⟩

theorem replaceFirstStudent_map_enroll (l : List StudentDoc) (en : String)
    (fields : StudentDoc) (hf : fields.enrollmentNo = en) :
    (replaceFirstStudent l en fields).map (fun s => s.enrollmentNo) =
      l.map (fun s => s.enrollmentNo) := by
  induction l with
  | nil => rfl
  | cons s ss ih =>
    by_cases h : s.enrollmentNo = en
    · simp [replaceFirstStudent, h, hf]
    · simp [replaceFirstStudent, h, ih]

theorem upsertStudent_mem (students : List StudentDoc) (nid : OId) (en : String)
    (fields : StudentDoc) (hf : fields.enrollmentNo = en) :
    en ∈ (upsertStudent students nid en fields).1.map (fun s => s.enrollmentNo) := by
  rw [upsertStudent]
  by_cases h : (students.find? (fun s => s.enrollmentNo = en)).isSome
  · rw [if_pos h]
    obtain ⟨s0, hs0⟩ := Option.isSome_iff_exists.mp h
    have hmem : s0 ∈ students := List.mem_of_find?_eq_some hs0
    have heq : s0.enrollmentNo = en := by
      have := List.find?_some hs0
      simpa using this
    show en ∈ (replaceFirstStudent students en fields).map (fun s => s.enrollmentNo)
    rw [replaceFirstStudent_map_enroll students en fields hf]
    exact heq ▸ List.mem_map_of_mem _ hmem
  · rw [if_neg h]
    simp [hf]

theorem upsertStudent_preserve (students : List StudentDoc) (nid : OId) (en : String)
    (fields : StudentDoc) (hf : fields.enrollmentNo = en) (e : String)
    (he : e ∈ students.map (fun s => s.enrollmentNo)) :
    e ∈ (upsertStudent students nid en fields).1.map (fun s => s.enrollmentNo) := by
  rw [upsertStudent]
  by_cases h : (students.find? (fun s => s.enrollmentNo = en)).isSome
  · rw [if_pos h]
    show e ∈ (replaceFirstStudent students en fields).map (fun s => s.enrollmentNo)
    rw [replaceFirstStudent_map_enroll students en fields hf]
    exact he
  · rw [if_neg h]
    simp only [List.map_append, List.mem_append]
    exact Or.inl he

theorem studentRowStep_dept_warn (st : Store) (idx : Nat) (row : StudentRow) (bc : String)
    (h1 : jsTruthyStr (row.map_number.map jsTrim) = true)
    (h2 : row.BR_CODE = some bc)
    (h3 : st.depts.find? (fun d => d.code = padStartChar 2 '0' bc) = none) :
    studentRowStep st idx row = (st, [],
      (if jsOrStr (row.Name.map jsTrim) "" = ""
        then [⟨idx + 1, "Missing student name"⟩] else []) ++
        [⟨idx + 1, "Department not found for branch code: " ++ padStartChar 2 '0' bc⟩],
      0) := by
  simp only [studentRowStep, h1, h2, h3, eq_self_iff_true, if_true]

theorem studentRowStep_valid (st : Store) (idx : Nat) (row : StudentRow)
    (h : validRowB st.depts row = true) :
    ∃ st', studentRowStep st idx row = (st', [],
        (if jsOrStr (row.Name.map jsTrim) "" = ""
          then [⟨idx + 1, "Missing student name"⟩] else []), 1) ∧
      st'.depts = st.depts ∧
      ((row.map_number.map jsTrim).getD "") ∈
        st'.students.map (fun s => s.enrollmentNo) ∧
      (∀ e ∈ st.students.map (fun s => s.enrollmentNo),
        e ∈ st'.students.map (fun s => s.enrollmentNo)) := by
  obtain ⟨h1, bc, hbr, dept, hdept⟩ := validRowB_parts h
  simp only [studentRowStep, h1, hbr, hdept, eq_self_iff_true, if_true]
  refine ⟨_, rfl, rfl, ?_, ?_⟩
  · exact upsertStudent_mem st.students _ ((row.map_number.map jsTrim).getD "") _ rfl
  · intro e he
    exact upsertStudent_preserve st.students _ ((row.map_number.map jsTrim).getD "") _ rfl e he

theorem missingEnrollErrs_length (rows : List StudentRow) : ∀ idx : Nat,
    (missingEnrollErrs idx rows).length = rows.countP badRowB := by
  induction rows with
  | nil => intro idx; rfl
  | cons r rest ih =>
    intro idx
    by_cases h : jsTruthyStr (r.map_number.map jsTrim) = true
    · simp [missingEnrollErrs, List.countP_cons, badRowB, h, ih]
    · have h' : jsTruthyStr (r.map_number.map jsTrim) = false := by
        simpa using h
      simp [missingEnrollErrs, List.countP_cons, badRowB, h', ih]

theorem importLoop_spec (rows : List StudentRow) : ∀ (st : Store) (idx : Nat),
    (∀ r ∈ rows, badRowB r = true ∨ validRowB st.depts r = true) →
    (importLoop st idx rows).2.1 = missingEnrollErrs idx rows ∧
    (importLoop st idx rows).2.2.2 + (missingEnrollErrs idx rows).length =
      rows.length ∧
    (importLoop st idx rows).1.depts = st.depts ∧
    (∀ r ∈ rows, validRowB st.depts r = true →
      ((r.map_number.map jsTrim).getD "") ∈
        (importLoop st idx rows).1.students.map (fun s => s.enrollmentNo)) ∧
    (∀ e ∈ st.students.map (fun s => s.enrollmentNo),
      e ∈ (importLoop st idx rows).1.students.map (fun s => s.enrollmentNo)) := by
  induction rows with
  | nil =>
    intro st idx _
    exact ⟨rfl, rfl, rfl, fun r hr => absurd hr (List.not_mem_nil r), fun e he => he⟩
  | cons r rest ih =>
    intro st idx h
    rcases h r (List.mem_cons_self r rest) with hbad | hval
    · have htf : jsTruthyStr (r.map_number.map jsTrim) = false := by
        have := hbad
        rw [badRowB] at this
        simpa using this
      have hstep := studentRowStep_bad st idx r htf
      have hrest := ih st (idx + 1) (fun x hx => h x (List.mem_cons_of_mem r hx))
      obtain ⟨he, hc, hd, hp, hpr⟩ := hrest
      simp only [importLoop, hstep]
      have hlen := missingEnrollErrs_length rest (idx + 1)
      refine ⟨?_, ?_, hd, ?_, hpr⟩
      · simp [missingEnrollErrs, htf, he]
      · simp only [missingEnrollErrs, htf, Bool.false_eq_true, if_false,
          List.length_append, List.length_cons, List.length_nil, List.length]
        omega
      · intro r' hr' hv'
        rcases List.mem_cons.mp hr' with rfl | hrt
        · obtain ⟨h1, _⟩ := validRowB_parts hv'
          rw [htf] at h1
          exact absurd h1 (by simp)
        · exact hp r' hrt hv'
    · obtain ⟨st', hstep, hdep, hmem, hpres⟩ := studentRowStep_valid st idx r hval
      have hclass' : ∀ x ∈ rest, badRowB x = true ∨ validRowB st'.depts x = true := by
        rw [hdep]
        exact fun x hx => h x (List.mem_cons_of_mem r hx)
      have hrest := ih st' (idx + 1) hclass'
      obtain ⟨he, hc, hd, hp, hpr⟩ := hrest
      obtain ⟨h1, _⟩ := validRowB_parts hval
      simp only [importLoop, hstep]
      refine ⟨?_, ?_, ?_, ?_, ?_⟩
      · simp [missingEnrollErrs, h1, he]
      · simp only [missingEnrollErrs, h1, if_true, List.nil_append, List.length_cons]
        omega
      · rw [hd, hdep]
      · intro r' hr' hv'
        rcases List.mem_cons.mp hr' with rfl | hrt
        · exact hpr _ hmem
        · have hv'' : validRowB st'.depts r' = true := by rw [hdep]; exact hv'
          exact hp r' hrt hv''
      · intro e he'
        exact hpr e (hpres e he')

/-- C6.  For a run whose rows each either lack the mandatory enrollment
number (k of them) or are fully processable, the run continues past
each bad row and responds with `count = R - k`, an error list holding
exactly one "Missing enrollment number" entry per bad row (1-based over
the decoded sequence), and every valid row's enrollment number
persisted; separately, a row whose department cannot be resolved is
recorded as a warning, not an error, and is skipped. -/
theorem c6_partial_failure :
    (∀ (st : Store) (rows : List StudentRow), ¬ rows = [] →
      (∀ r ∈ rows, badRowB r = true ∨ validRowB st.depts r = true) →
      ∃ stF warns,
        importGTUStudents st rows = Except.ok (stF,
          ⟨rows.length - rows.countP badRowB, missingEnrollErrs 0 rows, warns⟩) ∧
        (missingEnrollErrs 0 rows).length = rows.countP badRowB ∧
        (∀ r ∈ rows, validRowB st.depts r = true →
          ((r.map_number.map jsTrim).getD "") ∈
            stF.students.map (fun s => s.enrollmentNo))) ∧
    (∀ (st2 : Store) (idx : Nat) (row : StudentRow) (bc : String),
      jsTruthyStr (row.map_number.map jsTrim) = true →
      row.BR_CODE = some bc →
      st2.depts.find? (fun d => d.code = padStartChar 2 '0' bc) = none →
      studentRowStep st2 idx row = (st2, [],
        (if jsOrStr (row.Name.map jsTrim) "" = ""
          then [⟨idx + 1, "Missing student name"⟩] else []) ++
          [⟨idx + 1, "Department not found for branch code: " ++ padStartChar 2 '0' bc⟩],
        0)) := by
  constructor
  · intro st rows hne hclass
    obtain ⟨he, hc, _, hp, _⟩ := importLoop_spec rows st 0 hclass
    have hlen := missingEnrollErrs_length rows 0
    have hok : importGTUStudents st rows = Except.ok ((importLoop st 0 rows).1,
        ⟨(importLoop st 0 rows).2.2.2, (importLoop st 0 rows).2.1,
         (importLoop st 0 rows).2.2.1⟩) := by
      rw [importGTUStudents, if_neg (by simpa using hne)]
    refine ⟨(importLoop st 0 rows).1, (importLoop st 0 rows).2.2.1, ?_, ?_, ?_⟩
    · rw [hok, he]
      have hcount : (importLoop st 0 rows).2.2.2 =
          rows.length - rows.countP badRowB := by omega
      rw [hcount]
    · omega
    · exact hp
  · intro st2 idx row bc h1 h2 h3
    exact studentRowStep_dept_warn st2 idx row bc h1 h2 h3

/-- C6 (witness).  The three-row fixture (valid, missing enrollment,
valid) processed against the one-department store: count 2, one
"Missing enrollment number" error at 1-based row 2, and both valid
enrollment numbers persisted. -/
theorem c6_partial_failure_witness :
    ∃ stF warns,
      importGTUStudents storeC6 rowsC6 = Except.ok (stF,
        ⟨2, [⟨2, "Missing enrollment number"⟩], warns⟩) ∧
      "22000001" ∈ stF.students.map (fun s => s.enrollmentNo) ∧
      "22000002" ∈ stF.students.map (fun s => s.enrollmentNo) := by
  obtain ⟨stF, warns, hok, _, hp⟩ :=
    (c6_partial_failure.1) storeC6 rowsC6 (by decide) (by decide)
  refine ⟨stF, warns, ?_, ?_, ?_⟩
  · have h1 : rowsC6.length - rowsC6.countP badRowB = 2 := by decide
    have h2 : missingEnrollErrs 0 rowsC6 = [⟨2, "Missing enrollment number"⟩] := by
      decide
    rw [h1, h2] at hok
    exact hok
  · have := hp (rowsC6.get ⟨0, by decide⟩) (by decide) (by decide)
    simpa using this
  · have := hp (rowsC6.get ⟨2, by decide⟩) (by decide) (by decide)
    simpa using this

theorem updateUsersById_none (users : List UserDoc) (f : UserDoc → UserDoc) :
    updateUsersById users none f = users := rfl

theorem updateUsersById_uid_name (users : List UserDoc) (i : OId)
    (f : UserDoc → UserDoc) (hf : ∀ u, (f u).uid = u.uid ∧ (f u).name = u.name) :
    (updateUsersById users (some i) f).map (fun u => (u.uid, u.name)) =
      users.map (fun u => (u.uid, u.name)) := by
  simp only [updateUsersById, List.map_map]
  apply List.map_congr_left
  intro u _
  by_cases h : u.uid = i
  · simp [Function.comp, h, (hf u).1, (hf u).2]
  · simp [Function.comp, h]

/-- C10.  When a roster row's derived institutional email belongs to an
already-existing user account, the row's processing leaves every user's
name unchanged — including when the stored name is the placeholder
"N/A" and the row supplies a non-empty full name, because the
name-repair `findByIdAndUpdate` is issued against the still-`null`
`userId` variable and so matches no document. -/
theorem c10_existing_user_name_preserved (st : Store) (idx : Nat) (row : StudentRow)
    (u : UserDoc)
    (hfind : st.users.find? (fun x => x.email = instEmailOfRow row) = some u) :
    ((studentRowStep st idx row).1.users).map (fun x => (x.uid, x.name)) =
      st.users.map (fun x => (x.uid, x.name)) := by
  have hfind' : st.users.find?
      (fun x => x.email =
        strLower ((row.map_number.map jsTrim).getD "") ++ "@gppalanpur.ac.in") =
      some u := by
    rw [← instEmailOfRow]
    exact hfind
  by_cases h1 : jsTruthyStr (row.map_number.map jsTrim) = true
  · cases hbr : row.BR_CODE with
    | none => simp [studentRowStep, h1, hbr]
    | some bc =>
      cases hdept : st.depts.find? (fun d => d.code = padStartChar 2 '0' bc) with
      | none => simp [studentRowStep, h1, hbr, hdept]
      | some dept =>
        simp only [studentRowStep, h1, hbr, hdept, eq_self_iff_true, if_true, hfind',
          updateUsersById_none, ite_self]
        by_cases hrole : (!u.roles.contains "student") = true
        · rw [if_pos hrole]
          exact updateUsersById_uid_name st.users u.uid
            (fun v => { v with roles := v.roles ++ ["student"] }) (fun v => ⟨rfl, rfl⟩)
        · rw [if_neg hrole]
  · have h1' : jsTruthyStr (row.map_number.map jsTrim) = false := by simpa using h1
    simp [studentRowStep_bad st idx row h1']

/-- C10 (witness).  Processing `rowC10` against `storeC10` leaves the
existing user's name "N/A" although the row supplies "Patel Raj". -/
theorem c10_existing_user_name_preserved_witness :
    ((studentRowStep storeC10 0 rowC10).1.users).map (fun x => (x.uid, x.name)) =
      [(1, "N/A")] := by
  rw [c10_existing_user_name_preserved storeC10 0 rowC10 userC10 (by decide)]
  decide
